import Mathlib

/-!
# langfuse-go: the observer handler and the entity constructors

A shallow embedding of

* `internal/pkg/observer/handler.go` : the handler, its `listen` loop, `handle`,
  `flush`, `flushAndWait` and `withTick`, as a labelled small-step transition
  system over goroutines and Go channels;
* `langfuse.go` : `buildID`, `Trace`, `createTrace`, `Span`, `Generation`,
  `Event`, `Observation`, `SpanEnd`, `GenerationEnd`, `ObservationUpdate`;
* `model/model.go` : the entity records.

Go semantics used by the embedding:

* a send on an unbuffered channel completes only together with a receive
  (a joint step of the two goroutines); a send on a closed channel panics; a
  receive on a closed channel returns at once;
* a send on a buffered channel of capacity 1 completes when the slot is free and
  blocks otherwise;
* `select` picks any ready case;
* `time.NewTicker d` panics when `d ≤ 0`;
* goroutines interleave at statement granularity (the argument `h.queue.All()`
  of the sink call is evaluated before the call);
* a panic ends the goroutine that raised it; the other goroutines are left free
  to go on, which only adds behaviours to those of the program.

The sink `fn` is external: a call of it is recorded with its batch when it is
made, and may return at any later time or never. Ticks may fire at any time
while the ticker is not stopped.
-/

namespace Observer

/-- The `command` constants of handler.go, lines 8 to 14. -/
inductive Command where
  | commanFlush
  | commandFlushAndWait
  | commandFlushDone
deriving DecidableEq, Repr

/-- A `time.Duration`: a signed number of nanoseconds. -/
abbrev Duration := Int

/-- The constant `defaultTickerPeriod = 1 * time.Second` of handler.go, line 17. -/
def defaultTickerPeriod : Duration := 1000000000

/-- A `time.Ticker`: its period, whether `Stop` was called on it, and whether a
tick is waiting in its channel `C` (which holds at most one tick). -/
structure Ticker where
  period : Duration
  stopped : Bool
  pending : Bool
deriving DecidableEq, Repr

/-- The library call `time.NewTicker d`: it panics (`none`) when `d ≤ 0`. -/
def NewTicker (d : Duration) : Option Ticker :=
  if d ≤ 0 then none else some ⟨d, false, false⟩

/-- The library call `(*time.Ticker).Stop`: no more ticks are sent. A tick that
already waits in the channel is left there. -/
def Ticker.Stop (t : Ticker) : Ticker := { t with stopped := true }

/-- Modelled from the spec: the queue of queue.go, which is not among the
sources. Section 4.1: an ordered sequence of items; `push` appends at the tail,
`drain` captures the contents, resets the storage to empty and returns the
captured sequence. Both run under the queue's lock, hence atomically. -/
structure Queue (T : Type) where
  items : List T
deriving DecidableEq, Repr

/-- Modelled from the spec: `push(item)` of section 4.1, appends at the tail. -/
def Queue.push {T : Type} (q : Queue T) (item : T) : Queue T := ⟨q.items ++ [item]⟩

/-- Modelled from the spec: the drain of section 4.1, called `h.queue.All()` at
handler.go line 72. Returns the captured contents and the emptied queue. -/
def Queue.All {T : Type} (q : Queue T) : List T × Queue T := (q.items, ⟨[]⟩)

/-- One call made by a client goroutine: `Push` on the queue, `flush`,
`flushAndWait` or `withTick` on the handler. -/
inductive Op (T : Type) where
  | push (e : T)
  | flush
  | flushAndWait
  | withTick (p : Duration)
deriving DecidableEq, Repr

/-- Where a client goroutine stands inside the call at the head of its program.
`entry`: at the first statement of the call (for `flush` and `flushAndWait` this
is the send on `commandCh`, lines 76 and 80); `wt41`: `withTick` after line 40;
`wt42`: `withTick` at the send of line 42; `faw81`: `flushAndWait` at the receive
of line 81; `panicked`: the call panicked. -/
inductive ClientPc where
  | entry
  | wt41
  | wt42
  | faw81
  | panicked
deriving DecidableEq, Repr

/-- A client goroutine: the calls it still has to make (the head is the call in
progress) and its position inside the head call. -/
structure Client (T : Type) where
  prog : List (Op T)
  pc : ClientPc
deriving DecidableEq, Repr

/-- The position of the goroutine running `listen` (handler.go lines 47 to 69).
`sender` is bookkeeping: the client whose command is being processed. -/
inductive LoopPc (T : Type) where
  /-- The goroutine exists, line 48 has not run. -/
  | notStarted
  /-- Blocked in the `select` of line 51. -/
  | select
  /-- Line 59: `handle` entered for `cmd`, `h.queue.All()` not yet evaluated. -/
  | handling (cmd : Command) (sender : Nat)
  /-- Line 72: `h.queue.All()` returned `batch`, `h.fn` not yet called. -/
  | drained (cmd : Command) (sender : Nat) (batch : List T)
  /-- Line 72: inside the call of `h.fn`, which was passed `batch`. -/
  | inSink (cmd : Command) (sender : Nat) (batch : List T)
  /-- Line 60: `handle` has returned. -/
  | handled (cmd : Command) (sender : Nat)
  /-- Line 62: the ticker is stopped, `close(h.commandCh)` not yet executed. -/
  | closing (sender : Nat)
  /-- Line 56: `listen` has returned. -/
  | returned
  /-- The goroutine panicked inside `time.NewTicker`. -/
  | panicked
deriving DecidableEq, Repr

/-- The position of a goroutine started by `go h.handle(ctx)` at line 53. -/
inductive AsyncPc (T : Type) where
  /-- Started, `h.queue.All()` not yet evaluated. -/
  | spawned
  /-- The queue is drained into `batch`, `h.fn` not yet called. -/
  | drained (batch : List T)
  /-- Inside the call of `h.fn`. -/
  | inSink
  /-- The goroutine has ended. -/
  | finished
deriving DecidableEq, Repr

/-- The handler of handler.go lines 20 to 27 together with the goroutines that
work on it.

* `queue`, `tickerUpdate`, `ticker`, `tickerPeriod` are the fields of the Go
  struct; `chClosed` is the state of the unbuffered `commandCh`; `tickerUpdate`
  is the single slot of the capacity 1 channel; `ticker = none` is the nil
  pointer before line 48.
* `sink` records the calls of the field `fn`: the batches it was invoked with,
  in invocation order.
* `loop`, `asyncs`, `clients` are the goroutines.
* `retired` lists the tickers replaced at line 66; `cmdLog` lists the commands
  received at line 54.
* `completed` lists the calls of `handle` at line 59 that have returned, each
  with the command and the client it was made for and the batch it passed to
  the sink: an entry is added when the sink call of that invocation returns. -/
structure System (T : Type) where
  queue : Queue T
  chClosed : Bool
  tickerUpdate : Option Duration
  ticker : Option Ticker
  tickerPeriod : Duration
  sink : List (List T)
  loop : LoopPc T
  asyncs : List (AsyncPc T)
  clients : List (Client T)
  retired : List Ticker
  cmdLog : List Command
  completed : List (Command × Nat × List T)
deriving DecidableEq, Repr

/-- The function `newHandler` (lines 29 to 37) followed by `go listen`: an open
command channel, an empty update slot, the default period, no ticker yet. -/
def newHandler {T : Type} (queue : Queue T) (clients : List (List (Op T))) : System T :=
  { queue := queue
    chClosed := false
    tickerUpdate := none
    ticker := none
    tickerPeriod := defaultTickerPeriod
    sink := []
    loop := .notStarted
    asyncs := []
    clients := clients.map fun p => ⟨p, .entry⟩
    retired := []
    cmdLog := []
    completed := [] }

/-- The scheduling choices: which goroutine moves, and which case a `select`
takes. -/
inductive Label where
  /-- Line 48. -/
  | loopStart
  /-- The runtime puts a tick into `h.ticker.C`. -/
  | tickFire
  /-- Lines 52 and 53. -/
  | loopTick
  /-- Line 54 together with the send of client `sender` (lines 76 or 80). -/
  | loopRecv (sender : Nat)
  /-- Lines 54 to 56 on a closed channel. -/
  | loopRecvClosed
  /-- Lines 64 to 66. -/
  | loopUpdate
  /-- Line 72, the argument `h.queue.All()`, inside the call of line 59. -/
  | loopDrain
  /-- Line 72, the call of `h.fn`. -/
  | loopSinkCall
  /-- The call of `h.fn` returns, and with it `handle`. -/
  | loopSinkRet
  /-- Lines 60 and 61. -/
  | loopAfter
  /-- Line 62. -/
  | loopClose
  /-- Line 72 in the goroutine `i` started at line 53: `h.queue.All()`. -/
  | asyncDrain (i : Nat)
  /-- Line 72 in goroutine `i`: the call of `h.fn`. -/
  | asyncSinkCall (i : Nat)
  /-- The call of `h.fn` in goroutine `i` returns. -/
  | asyncSinkRet (i : Nat)
  /-- Client `t` executes its next statement on its own. -/
  | client (t : Nat)
  /-- The send of client `sender` meets the receive of line 81 in client
  `receiver`. -/
  | handoff (sender receiver : Nat)
deriving DecidableEq, Repr

/-- The command a client is about to send on `commandCh` (lines 76 and 80). -/
def sending {T : Type} (c : Client T) : Option Command :=
  match c.prog, c.pc with
  | .flush :: _, .entry => some .commanFlush
  | .flushAndWait :: _, .entry => some .commandFlushAndWait
  | _, _ => none

/-- The client after its send completed: `flush` returns, `flushAndWait` goes on
to the receive of line 81. -/
def afterSend {T : Type} (c : Client T) : Client T :=
  match c.prog with
  | .flush :: rest => ⟨rest, .entry⟩
  | .flushAndWait :: rest => ⟨.flushAndWait :: rest, .faw81⟩
  | _ => c

/-- Whether the client waits in the receive of line 81. -/
def receiving {T : Type} (c : Client T) : Bool :=
  match c.prog, c.pc with
  | .flushAndWait :: _, .faw81 => true
  | _, _ => false

/-- The method `withTick` of handler.go, lines 39 to 45, called by client `t`
with `rest` as the calls it makes afterwards; one statement per step. Line 40
records the period, line 41 tests `h.ticker != nil`, line 42 sends on the
buffered channel `tickerUpdate` and blocks (`none`) while its slot is full. -/
def withTick {T : Type} (s : System T) (t : Nat) (period : Duration) (rest : List (Op T)) :
    ClientPc → Option (System T)
  | .entry =>
    some { s with tickerPeriod := period,
                  clients := s.clients.set t ⟨.withTick period :: rest, .wt41⟩ }
  | .wt41 =>
    match s.ticker with
    | some _ => some { s with clients := s.clients.set t ⟨.withTick period :: rest, .wt42⟩ }
    | none => some { s with clients := s.clients.set t ⟨rest, .entry⟩ }
  | .wt42 =>
    match s.tickerUpdate with
    | none => some { s with tickerUpdate := some period,
                            clients := s.clients.set t ⟨rest, .entry⟩ }
    | some _ => none
  | _ => none

/-- The method `flush` of handler.go, lines 75 to 77, as far as client `t` can
run it alone: its send on `commandCh` (line 76) panics when the channel is
closed and otherwise waits for a receiver (labels `loopRecv` and `handoff`). -/
def flush {T : Type} (s : System T) (t : Nat) (rest : List (Op T)) :
    ClientPc → Option (System T)
  | .entry =>
    if s.chClosed then some { s with clients := s.clients.set t ⟨.flush :: rest, .panicked⟩ }
    else none
  | _ => none

/-- The method `flushAndWait` of handler.go, lines 79 to 82, as far as client
`t` can run it alone: the send of line 80 panics when the channel is closed and
otherwise waits for a receiver; the receive of line 81 returns at once when the
channel is closed and otherwise waits for a sender (label `handoff`). -/
def flushAndWait {T : Type} (s : System T) (t : Nat) (rest : List (Op T)) :
    ClientPc → Option (System T)
  | .entry =>
    if s.chClosed then
      some { s with clients := s.clients.set t ⟨.flushAndWait :: rest, .panicked⟩ }
    else none
  | .faw81 =>
    if s.chClosed then some { s with clients := s.clients.set t ⟨rest, .entry⟩ } else none
  | _ => none

/-- The statements client `t` executes on its own: the head call of its program
at its current position. A push is one atomic statement. -/
def clientStep {T : Type} (s : System T) (t : Nat) (c : Client T) : Option (System T) :=
  match c.prog with
  | [] => none
  | .push e :: rest =>
    match c.pc with
    | .entry => some { s with queue := s.queue.push e, clients := s.clients.set t ⟨rest, .entry⟩ }
    | _ => none
  | .withTick period :: rest => withTick s t period rest c.pc
  | .flush :: rest => flush s t rest c.pc
  | .flushAndWait :: rest => flushAndWait s t rest c.pc

/-- The method `listen` of handler.go, lines 47 to 69: the steps of the loop
goroutine, with the call of `handle` at line 59 in its three steps (drain, sink
call, return of the sink call). -/
def listen {T : Type} (s : System T) : Label → Option (System T)
  | .loopStart =>
    match s.loop with
    | .notStarted =>
      match NewTicker s.tickerPeriod with
      | some tk => some { s with ticker := some tk, loop := .select }
      | none => some { s with loop := .panicked }
    | _ => none
  | .loopTick =>
    match s.loop, s.ticker with
    | .select, some tk =>
      if tk.pending then
        some { s with ticker := some { tk with pending := false },
                      asyncs := s.asyncs ++ [.spawned] }
      else none
    | _, _ => none
  | .loopRecv t =>
    match s.loop, s.clients[t]? with
    | .select, some c =>
      if s.chClosed then none
      else
        match sending c with
        | some cmd =>
          some { s with clients := s.clients.set t (afterSend c),
                        loop := .handling cmd t,
                        cmdLog := s.cmdLog ++ [cmd] }
        | none => none
    | _, _ => none
  | .loopRecvClosed =>
    match s.loop with
    | .select => if s.chClosed then some { s with loop := .returned } else none
    | _ => none
  | .loopUpdate =>
    match s.loop, s.tickerUpdate, s.ticker with
    | .select, some d, some tk =>
      match NewTicker d with
      | some tk' =>
        some { s with tickerUpdate := none, ticker := some tk',
                      retired := tk.Stop :: s.retired }
      | none =>
        some { s with tickerUpdate := none, ticker := some tk.Stop, loop := .panicked }
    | _, _, _ => none
  | .loopDrain =>
    match s.loop with
    | .handling cmd t => some { s with queue := s.queue.All.2, loop := .drained cmd t s.queue.All.1 }
    | _ => none
  | .loopSinkCall =>
    match s.loop with
    | .drained cmd t batch =>
      some { s with sink := s.sink ++ [batch], loop := .inSink cmd t batch }
    | _ => none
  | .loopSinkRet =>
    match s.loop with
    | .inSink cmd t batch =>
      some { s with loop := .handled cmd t, completed := s.completed ++ [(cmd, t, batch)] }
    | _ => none
  | .loopAfter =>
    match s.loop with
    | .handled cmd t =>
      if cmd = .commandFlushAndWait then
        some { s with ticker := s.ticker.map Ticker.Stop, loop := .closing t }
      else some { s with loop := .select }
    | _ => none
  | .loopClose =>
    match s.loop with
    | .closing _ => some { s with chClosed := true, loop := .select }
    | _ => none
  | _ => none

/-- The goroutines started by `go h.handle(ctx)` at line 53: the method `handle`
(lines 71 to 73) in its three steps. -/
def goHandle {T : Type} (s : System T) : Label → Option (System T)
  | .asyncDrain i =>
    match s.asyncs[i]? with
    | some .spawned =>
      some { s with queue := s.queue.All.2, asyncs := s.asyncs.set i (.drained s.queue.All.1) }
    | _ => none
  | .asyncSinkCall i =>
    match s.asyncs[i]? with
    | some (.drained batch) =>
      some { s with sink := s.sink ++ [batch], asyncs := s.asyncs.set i .inSink }
    | _ => none
  | .asyncSinkRet i =>
    match s.asyncs[i]? with
    | some .inSink => some { s with asyncs := s.asyncs.set i .finished }
    | _ => none
  | _ => none

/-- One step of the system under a scheduling choice; `none` when the choice is
not enabled in the state. -/
def step {T : Type} (s : System T) : Label → Option (System T)
  | .tickFire =>
    match s.ticker with
    | some tk =>
      if tk.stopped then none else some { s with ticker := some { tk with pending := true } }
    | none => none
  | .client t =>
    match s.clients[t]? with
    | some c => clientStep s t c
    | none => none
  | .handoff a b =>
    match s.clients[a]?, s.clients[b]? with
    | some ca, some cb =>
      if a = b ∨ s.chClosed = true ∨ receiving cb = false then none
      else
        match sending ca with
        | some _ =>
          some { s with clients := (s.clients.set a (afterSend ca)).set b ⟨cb.prog.tail, .entry⟩ }
        | none => none
    | _, _ => none
  | .asyncDrain i => goHandle s (.asyncDrain i)
  | .asyncSinkCall i => goHandle s (.asyncSinkCall i)
  | .asyncSinkRet i => goHandle s (.asyncSinkRet i)
  | l => listen s l

/-- Runs a schedule from a state; `none` when some choice is not enabled. -/
def run {T : Type} (s : System T) : List Label → Option (System T)
  | [] => some s
  | l :: ls => (step s l).bind fun s' => run s' ls

/-- The states that some schedule reaches from `s0`. -/
def Reachable {T : Type} (s0 s : System T) : Prop := ∃ ls, run s0 ls = some s

/-- The method `handle` (lines 71 to 73) run without interruption: the sink is
called with the drained contents of the queue. -/
def handle {T : Type} (s : System T) : System T :=
  { s with queue := s.queue.All.2, sink := s.sink ++ [s.queue.All.1] }

end Observer

namespace Observer

/-- The loop is past line 48, has neither returned nor panicked, and is not
processing a `commandFlushAndWait`. -/
def LoopPc.serving {T : Type} : LoopPc T → Prop
  | .select => True
  | .handling c _ | .drained c _ _ | .inSink c _ _ | .handled c _ => c ≠ .commandFlushAndWait
  | _ => False

/-- The state `Running` of the spec's state machine: the loop serves (see
`LoopPc.serving`) and the command channel is open. -/
def Running {T : Type} (s : System T) : Prop :=
  s.chClosed = false ∧ s.loop.serving

/-- The loop has not received a `commandFlushAndWait` yet: it is not processing
one, is not about to close the channel, and has not returned. -/
def LoopPc.beforeFAW {T : Type} : LoopPc T → Prop
  | .notStarted | .select | .panicked => True
  | .handling c _ | .drained c _ _ | .inSink c _ _ | .handled c _ => c ≠ .commandFlushAndWait
  | .closing _ | .returned => False

/-- The loop is processing the `commandFlushAndWait` sent by client `t`: between
the receive of line 54 and the `close` of line 62. -/
def LoopPc.inFAW {T : Type} (t : Nat) : LoopPc T → Prop
  | .handling c u | .drained c u _ | .inSink c u _ | .handled c u =>
    c = .commandFlushAndWait ∧ u = t
  | .closing u => u = t
  | _ => False

/-- The handle invocation triggered by the `commandFlushAndWait` of client `t`
has not returned: the loop is inside `handle` (line 59), before or inside the
sink call. -/
def LoopPc.fawHandleOpen {T : Type} (t : Nat) : LoopPc T → Prop
  | .handling c u | .drained c u _ | .inSink c u _ => c = .commandFlushAndWait ∧ u = t
  | _ => False

/-- The loop is not inside a command: it is back in the `select`, has returned,
or has panicked. -/
def LoopPc.idle {T : Type} : LoopPc T → Prop
  | .select | .returned | .panicked => True
  | _ => False

/-- The loop has drained the queue for a `commandFlushAndWait` and has not yet
closed the channel. -/
def LoopPc.pastDrain {T : Type} : LoopPc T → Prop
  | .drained c _ _ | .inSink c _ _ | .handled c _ => c = .commandFlushAndWait
  | .closing _ => True
  | _ => False

/-- The command the loop is processing, if any. -/
def LoopPc.cmd {T : Type} : LoopPc T → Option Command
  | .handling c _ | .drained c _ _ | .inSink c _ _ | .handled c _ => some c
  | .closing _ => some .commandFlushAndWait
  | _ => none

/-- The batch the loop has drained and not yet passed to the sink. -/
def LoopPc.held {T : Type} : LoopPc T → List T
  | .drained _ _ b => b
  | _ => []

/-- The batch a tick-started goroutine has drained and not yet passed to the
sink. -/
def AsyncPc.held {T : Type} : AsyncPc T → List T
  | .drained b => b
  | _ => []

/-- The events a program still has to push. -/
def pushes {T : Type} : List (Op T) → List T
  | [] => []
  | .push e :: rest => e :: pushes rest
  | _ :: rest => pushes rest

/-- A client that never sends on the command channel: its program holds neither
`flush` nor `flushAndWait`. -/
def Quiet {T : Type} (prog : List (Op T)) : Prop :=
  ∀ op ∈ prog, op ≠ .flush ∧ op ≠ .flushAndWait

/-- Every event of the system, counted with multiplicity: those the sink has
received, those drained and not yet passed on, those in the queue, and those the
clients still have to push. -/
def mass {T : Type} (s : System T) : Multiset T :=
  (s.sink.flatten : Multiset T) + (s.loop.held : Multiset T)
    + (s.asyncs.map fun a => (a.held : Multiset T)).sum
    + (s.queue.items : Multiset T)
    + (s.clients.map fun c => (pushes c.prog : Multiset T)).sum

/-- Runs the statements of client `t` alone, `n` of them. -/
def runClient {T : Type} (t : Nat) : Nat → System T → Option (System T)
  | 0, s => some s
  | n + 1, s => (step s (.client t)).bind (runClient t n)

end Observer

namespace Model

/-- A `time.Time`, as nanoseconds since the Unix epoch. -/
structure Time where
  unixNano : Int
deriving DecidableEq, Repr

/-- A `float64`, by its bit pattern. -/
structure Float64 where
  bits : Nat
deriving DecidableEq, Repr

/-- A value of Go's `any` as the SDK meets it: `nil` or JSON-like data. -/
inductive GoAny where
  | null
  | bool (b : Bool)
  | int (i : Int)
  | float (f : Float64)
  | str (s : String)
  | list (xs : List GoAny)
  | object (kvs : List (String × GoAny))

/-- The type `IngestionEventType` of model.go line 5. -/
abbrev IngestionEventType := String

def IngestionEventTypeTraceCreate : IngestionEventType := "trace-create"
def IngestionEventTypeGenerationCreate : IngestionEventType := "generation-create"
def IngestionEventTypeGenerationUpdate : IngestionEventType := "generation-update"
def IngestionEventTypeScoreCreate : IngestionEventType := "score-create"
def IngestionEventTypeSpanCreate : IngestionEventType := "span-create"
def IngestionEventTypeSpanUpdate : IngestionEventType := "span-update"
def IngestionEventTypeEventCreate : IngestionEventType := "event-create"
def IngestionEventTypeSDKLog : IngestionEventType := "sdk-log"
def IngestionEventTypeObservationCreate : IngestionEventType := "observation-create"
def IngestionEventTypeObservationUpdate : IngestionEventType := "observation-update"

/-- The type `ObservationType` of model.go line 44. -/
abbrev ObservationType := String

def ObservationTypeSpan : ObservationType := "SPAN"
def ObservationTypeGeneration : ObservationType := "GENERATION"
def ObservationTypeEvent : ObservationType := "EVENT"
def ObservationTypeAgent : ObservationType := "AGENT"
def ObservationTypeTool : ObservationType := "TOOL"
def ObservationTypeChain : ObservationType := "CHAIN"
def ObservationTypeRetriever : ObservationType := "RETRIEVER"
def ObservationTypeEvaluator : ObservationType := "EVALUATOR"
def ObservationTypeEmbedding : ObservationType := "EMBEDDING"
def ObservationTypeGuardrail : ObservationType := "GUARDRAIL"

/-- The type `ObservationLevel` of model.go line 59. -/
abbrev ObservationLevel := String

/-- The type `ModelUsageUnit` of model.go line 107. -/
abbrev ModelUsageUnit := String

/-- The type `ScoreDataType` of model.go. -/
abbrev ScoreDataType := String

/-- The struct `Trace` of model.go lines 28 to 42; every field defaults to its
Go zero value. -/
structure Trace where
  ID : String := ""
  Timestamp : Option Time := none
  Name : String := ""
  UserID : String := ""
  Input : GoAny := .null
  Output : GoAny := .null
  SessionID : String := ""
  Release : String := ""
  Version : String := ""
  Metadata : GoAny := .null
  Tags : List String := []
  Environment : String := ""
  Public : Bool := false

/-- The struct `Usage` of model.go lines 93 to 105. -/
structure Usage where
  Input : Int := 0
  Output : Int := 0
  Total : Int := 0
  Unit : ModelUsageUnit := ""
  InputCost : Float64 := ⟨0⟩
  OutputCost : Float64 := ⟨0⟩
  TotalCost : Float64 := ⟨0⟩
  PromptTokens : Int := 0
  CompletionTokens : Int := 0
  TotalTokens : Int := 0

/-- The struct `Generation` of model.go lines 68 to 91. -/
structure Generation where
  TraceID : String := ""
  Type_ : ObservationType := ""
  Name : String := ""
  StartTime : Option Time := none
  EndTime : Option Time := none
  CompletionStartTime : Option Time := none
  Model : String := ""
  ModelParameters : List (String × GoAny) := []
  Input : GoAny := .null
  Output : GoAny := .null
  Version : String := ""
  Metadata : GoAny := .null
  Usage : Option Usage := none
  UsageDetails : GoAny := .null
  CostDetails : List (String × Float64) := []
  Level : ObservationLevel := ""
  StatusMessage : String := ""
  ParentObservationID : String := ""
  Environment : String := ""
  PromptName : String := ""
  PromptVersion : Option Int := none
  ID : String := ""

/-- The struct `Score` of model.go lines 122 to 136. -/
structure Score where
  ID : String := ""
  TraceID : String := ""
  SessionID : String := ""
  ObservationID : String := ""
  DatasetRunID : String := ""
  Name : String := ""
  Environment : String := ""
  QueueID : String := ""
  Value : GoAny := .null
  Comment : String := ""
  Metadata : GoAny := .null
  DataType : ScoreDataType := ""
  ConfigID : String := ""

/-- The struct `Span` of model.go lines 138 to 153. -/
structure Span where
  TraceID : String := ""
  Type_ : ObservationType := ""
  Name : String := ""
  StartTime : Option Time := none
  EndTime : Option Time := none
  Metadata : GoAny := .null
  Input : GoAny := .null
  Output : GoAny := .null
  Level : ObservationLevel := ""
  StatusMessage : String := ""
  ParentObservationID : String := ""
  Version : String := ""
  Environment : String := ""
  ID : String := ""

/-- The struct `Event` of model.go lines 155 to 170. -/
structure Event where
  TraceID : String := ""
  Type_ : ObservationType := ""
  Name : String := ""
  StartTime : Option Time := none
  EndTime : Option Time := none
  Metadata : GoAny := .null
  Input : GoAny := .null
  Output : GoAny := .null
  Level : ObservationLevel := ""
  StatusMessage : String := ""
  ParentObservationID : String := ""
  Version : String := ""
  Environment : String := ""
  ID : String := ""

/-- The struct `Observation` of model.go lines 172 to 193. -/
structure Observation where
  TraceID : String := ""
  Type_ : ObservationType := ""
  Name : String := ""
  StartTime : Option Time := none
  EndTime : Option Time := none
  CompletionStartTime : Option Time := none
  Model : String := ""
  ModelParameters : List (String × GoAny) := []
  Input : GoAny := .null
  Version : String := ""
  Metadata : GoAny := .null
  Output : GoAny := .null
  Usage : Option Usage := none
  UsageDetails : GoAny := .null
  CostDetails : List (String × Float64) := []
  Level : ObservationLevel := ""
  StatusMessage : String := ""
  ParentObservationID : String := ""
  Environment : String := ""
  ID : String := ""

/-- The struct `SDKLog` of model.go lines 195 to 197. -/
structure SDKLog where
  Log : GoAny := .null

/-- What the field `Body any` of an ingestion event holds in langfuse.go: a
pointer to one of the entities. The embedding stores the entity the pointer
refers to, as it is when the event is dispatched; none of the embedded functions
writes to the entity after dispatching it. -/
inductive Body where
  | trace (t : Trace)
  | generation (g : Generation)
  | span (s : Span)
  | event (e : Event)
  | observation (o : Observation)
  | score (s : Score)
  | sdkLog (l : SDKLog)

/-- The struct `IngestionEvent` of model.go lines 20 to 26. -/
structure IngestionEvent where
  Type_ : IngestionEventType
  ID : String
  Timestamp : Time
  Metadata : GoAny := .null
  Body : Body

end Model

namespace Langfuse

open Model

/-- A `uuid.UUID` of github.com/google/uuid: sixteen bytes, as a number. -/
structure UUID where
  val : Nat
deriving DecidableEq, Repr

/-- The lower-case hexadecimal digit of `n % 16`. -/
def hexDigit (n : Nat) : Char :=
  ['0', '1', '2', '3', '4', '5', '6', '7', '8', '9', 'a', 'b', 'c', 'd', 'e', 'f'].getD
    (n % 16) '0'

/-- The hexadecimal digits number `i`, `i + 1`, ... (`n` of them) of the 32 that
a UUID has, the most significant first. -/
def UUID.hex (u : UUID) (i n : Nat) : List Char :=
  (List.range n).map fun k => hexDigit (u.val / 16 ^ (31 - (i + k)))

/-- The library method `UUID.String`: the form
`xxxxxxxx-xxxx-xxxx-xxxx-xxxxxxxxxxxx`. -/
def UUID.String (u : UUID) : String :=
  String.mk (u.hex 0 8 ++ '-' :: u.hex 8 4 ++ '-' :: u.hex 12 4 ++ '-' :: u.hex 16 4
    ++ '-' :: u.hex 20 12)

/-- What the program takes from outside: the UUIDs that `uuid.New()` returns
one after the other, and the instants that `time.Now().UTC()` returns. -/
structure Runtime where
  uuids : Nat → UUID
  drawn : Nat
  clock : Nat → Time
  reads : Nat

/-- The call `uuid.New().String()`. -/
def Runtime.newID (rt : Runtime) : String × Runtime :=
  ((rt.uuids rt.drawn).String, { rt with drawn := rt.drawn + 1 })

/-- The call `time.Now().UTC()`. -/
def Runtime.now (rt : Runtime) : Time × Runtime :=
  (rt.clock rt.reads, { rt with reads := rt.reads + 1 })

/-- The function `buildID` of langfuse.go lines 332 to 340; `none` is the nil
pointer. -/
def buildID (id : Option String) (rt : Runtime) : String × Runtime :=
  match id with
  | none => rt.newID
  | some s => if s = "" then rt.newID else (s, rt)

end Langfuse

/-- The struct `Langfuse` of langfuse.go lines 18 to 22, without the HTTP
client. The observer is the handler system over ingestion events. -/
structure Langfuse where
  flushInterval : Observer.Duration
  observer : Observer.System Model.IngestionEvent

namespace Langfuse

open Model

/-- Modelled from the spec: `Observer.Dispatch` of observer.go, which is not
among the sources. Section 4.3: it pushes the event to the underlying queue and
always succeeds. -/
def Dispatch (l : Langfuse) (event : IngestionEvent) : Langfuse :=
  { l with observer := { l.observer with queue := l.observer.queue.push event } }

/-- The outcome of a method taking a pointer to an entity and returning
`(*entity, error)`. Every return statement of langfuse.go is `return nil, err`
or `return p, nil` with `p` the pointer received: `out` is `.error msg` for the
first and `.ok e` for the second, `e` being the entity behind `p` on return.
`arg` is the caller's entity after the call, `l` and `rt` the states after. -/
structure Res (α : Type) where
  out : Except String α
  arg : α
  l : Langfuse
  rt : Runtime

/-- The method `Trace` of langfuse.go lines 62 to 73. -/
def Trace (l : Langfuse) (rt : Runtime) (t : Model.Trace) : Res Model.Trace :=
  let (id, rt1) := buildID (some t.ID) rt
  let t1 := { t with ID := id }
  let (eid, rt2) := buildID none rt1
  let (now, rt3) := rt2.now
  let l1 := l.Dispatch
    { ID := eid, Type_ := IngestionEventTypeTraceCreate, Timestamp := now, Body := .trace t1 }
  ⟨.ok t1, t1, l1, rt3⟩

/-- The method `createTrace` of langfuse.go lines 315 to 326: the returned pair
`(string, error)` and the states after. -/
def createTrace (l : Langfuse) (rt : Runtime) (traceName : String) :
    Except String String × Langfuse × Runtime :=
  let r := l.Trace rt { Name := traceName }
  match r.out with
  | .error errTrace => (.error errTrace, r.l, r.rt)
  | .ok trace => (.ok trace.ID, r.l, r.rt)

/-- The method `Generation` of langfuse.go lines 75 to 104. -/
def Generation (l : Langfuse) (rt : Runtime) (g : Model.Generation)
    (parentID : Option String) :
    Res Model.Generation :=
  let go (l : Langfuse) (rt : Runtime) (g : Model.Generation) : Res Model.Generation :=
    let g := if g.Type_ = "" then { g with Type_ := ObservationTypeGeneration } else g
    let (id, rt) := buildID (some g.ID) rt
    let g := { g with ID := id }
    let g := match parentID with
      | some p => { g with ParentObservationID := p }
      | none => g
    let (eid, rt) := buildID none rt
    let (now, rt) := rt.now
    let l := l.Dispatch
      { ID := eid, Type_ := IngestionEventTypeGenerationCreate, Timestamp := now,
        Body := .generation g }
    ⟨.ok g, g, l, rt⟩
  if g.TraceID = "" then
    match l.createTrace rt g.Name with
    | (.error err, l1, rt1) => ⟨.error err, g, l1, rt1⟩
    | (.ok traceID, l1, rt1) => go l1 rt1 { g with TraceID := traceID }
  else go l rt g

/-- The method `Observation` of langfuse.go lines 108 to 138. -/
def Observation (l : Langfuse) (rt : Runtime) (o : Model.Observation)
    (parentID : Option String) :
    Res Model.Observation :=
  let go (l : Langfuse) (rt : Runtime) (o : Model.Observation) : Res Model.Observation :=
    let o := if o.Type_ = "" then { o with Type_ := ObservationTypeSpan } else o
    let (id, rt) := buildID (some o.ID) rt
    let o := { o with ID := id }
    let o := match parentID with
      | some p => { o with ParentObservationID := p }
      | none => o
    let (eid, rt) := buildID none rt
    let (now, rt) := rt.now
    let l := l.Dispatch
      { ID := eid, Type_ := IngestionEventTypeObservationCreate, Timestamp := now,
        Body := .observation o }
    ⟨.ok o, o, l, rt⟩
  if o.TraceID = "" then
    match l.createTrace rt o.Name with
    | (.error err, l1, rt1) => ⟨.error err, o, l1, rt1⟩
    | (.ok traceID, l1, rt1) => go l1 rt1 { o with TraceID := traceID }
  else go l rt o

/-- The method `GenerationEnd` of langfuse.go lines 140 to 163. -/
def GenerationEnd (l : Langfuse) (rt : Runtime) (g : Model.Generation) : Res Model.Generation :=
  if g.ID = "" then ⟨.error "generation ID is required", g, l, rt⟩
  else if g.TraceID = "" then ⟨.error "trace ID is required", g, l, rt⟩
  else
    let g := if g.Type_ = "" then { g with Type_ := ObservationTypeGeneration } else g
    let (eid, rt) := buildID none rt
    let (now, rt) := rt.now
    let l := l.Dispatch
      { ID := eid, Type_ := IngestionEventTypeGenerationUpdate, Timestamp := now,
        Body := .generation g }
    ⟨.ok g, g, l, rt⟩

/-- The method `Span` of langfuse.go lines 182 to 212. -/
def Span (l : Langfuse) (rt : Runtime) (s : Model.Span) (parentID : Option String) :
    Res Model.Span :=
  let go (l : Langfuse) (rt : Runtime) (s : Model.Span) : Res Model.Span :=
    let s := if s.Type_ = "" then { s with Type_ := ObservationTypeSpan } else s
    let (id, rt) := buildID (some s.ID) rt
    let s := { s with ID := id }
    let s := match parentID with
      | some p => { s with ParentObservationID := p }
      | none => s
    let (eid, rt) := buildID none rt
    let (now, rt) := rt.now
    let l := l.Dispatch
      { ID := eid, Type_ := IngestionEventTypeSpanCreate, Timestamp := now, Body := .span s }
    ⟨.ok s, s, l, rt⟩
  if s.TraceID = "" then
    match l.createTrace rt s.Name with
    | (.error err, l1, rt1) => ⟨.error err, s, l1, rt1⟩
    | (.ok traceID, l1, rt1) => go l1 rt1 { s with TraceID := traceID }
  else go l rt s

/-- The method `SpanEnd` of langfuse.go lines 214 to 237. -/
def SpanEnd (l : Langfuse) (rt : Runtime) (s : Model.Span) : Res Model.Span :=
  if s.ID = "" then ⟨.error "generation ID is required", s, l, rt⟩
  else if s.TraceID = "" then ⟨.error "trace ID is required", s, l, rt⟩
  else
    let s := if s.Type_ = "" then { s with Type_ := ObservationTypeSpan } else s
    let (eid, rt) := buildID none rt
    let (now, rt) := rt.now
    let l := l.Dispatch
      { ID := eid, Type_ := IngestionEventTypeSpanUpdate, Timestamp := now, Body := .span s }
    ⟨.ok s, s, l, rt⟩

/-- The method `ObservationUpdate` of langfuse.go lines 240 to 263. -/
def ObservationUpdate (l : Langfuse) (rt : Runtime) (o : Model.Observation) :
    Res Model.Observation :=
  if o.ID = "" then ⟨.error "observation ID is required", o, l, rt⟩
  else if o.TraceID = "" then ⟨.error "trace ID is required", o, l, rt⟩
  else
    let o := if o.Type_ = "" then { o with Type_ := ObservationTypeSpan } else o
    let (eid, rt) := buildID none rt
    let (now, rt) := rt.now
    let l := l.Dispatch
      { ID := eid, Type_ := IngestionEventTypeObservationUpdate, Timestamp := now,
        Body := .observation o }
    ⟨.ok o, o, l, rt⟩

/-- The method `Event` of langfuse.go lines 265 to 295. The event's own ID comes
from `uuid.New().String()` directly (line 287). -/
def Event (l : Langfuse) (rt : Runtime) (e : Model.Event) (parentID : Option String) :
    Res Model.Event :=
  let go (l : Langfuse) (rt : Runtime) (e : Model.Event) : Res Model.Event :=
    let e := if e.Type_ = "" then { e with Type_ := ObservationTypeEvent } else e
    let (id, rt) := buildID (some e.ID) rt
    let e := { e with ID := id }
    let e := match parentID with
      | some p => { e with ParentObservationID := p }
      | none => e
    let (eid, rt) := rt.newID
    let (now, rt) := rt.now
    let l := l.Dispatch
      { ID := eid, Type_ := IngestionEventTypeEventCreate, Timestamp := now, Body := .event e }
    ⟨.ok e, e, l, rt⟩
  if e.TraceID = "" then
    match l.createTrace rt e.Name with
    | (.error err, l1, rt1) => ⟨.error err, e, l1, rt1⟩
    | (.ok traceID, l1, rt1) => go l1 rt1 { e with TraceID := traceID }
  else go l rt e

/-- The events dispatched so far and still in the observer's queue. -/
def dispatched (l : Langfuse) : List IngestionEvent := l.observer.queue.items

end Langfuse
namespace Observer

/-- The invariant behind a lone terminal wait. Client `t` is the only client
whose program holds `flush` or `flushAndWait` calls, its program is
`rest ++ flushAndWait :: post` with no `flushAndWait` in `rest`, and the system
is in one of three phases: the command is not yet sent (channel open, loop not
processing it); the client waits at line 81 (the loop processes the command, or
has closed the channel); the call has returned (channel closed, loop outside
any command). -/
def WaitInv {T : Type} (t : Nat) (post : List (Op T)) (s : System T) : Prop :=
  (∀ j c, s.clients[j]? = some c → j ≠ t → Quiet c.prog) ∧
  ∃ c, s.clients[t]? = some c ∧
    ((∃ rest, c.prog = rest ++ .flushAndWait :: post ∧ .flushAndWait ∉ rest ∧
        c.pc ≠ .faw81 ∧ s.chClosed = false ∧ s.loop.beforeFAW) ∨
     (c.prog = .flushAndWait :: post ∧ c.pc = .faw81 ∧
        ((s.chClosed = false ∧ s.loop.inFAW t) ∨ (s.chClosed = true ∧ s.loop.idle))) ∨
     (c.prog.length ≤ post.length ∧ s.chClosed = true ∧ s.loop.idle))

/-- Once the loop has drained the queue for a `commandFlushAndWait`, or has
closed the channel, the queue is empty. -/
def DrainedInv {T : Type} (s : System T) : Prop :=
  (s.loop.pastDrain ∨ s.chClosed = true) → s.queue.items = []

/-- A `commandFlushAndWait` has been processed: it was received at line 54, and
the call of `handle` made for it at line 59 has returned, after a sink call that
is on record. -/
def Processed {T : Type} (s : System T) : Prop :=
  .commandFlushAndWait ∈ s.cmdLog ∧
  ∃ u b, (Command.commandFlushAndWait, u, b) ∈ s.completed ∧ b ∈ s.sink

/-- The channel is closed, or about to be, only after a `commandFlushAndWait` has
been processed; the loop has returned only on a closed channel. Beside that: a
command in progress is in the command log, the loop is past a sink call only
with the batch on record, past a call of `handle` only with that call among the
completed ones, and every completed call has its batch in the sink record. -/
def StopInv {T : Type} (s : System T) : Prop :=
  (s.chClosed = true → Processed s) ∧
  (∀ c, s.loop.cmd = some c → c ∈ s.cmdLog) ∧
  (∀ c u b, s.loop = .inSink c u b → b ∈ s.sink) ∧
  (∀ c u, s.loop = .handled c u → ∃ b, (c, u, b) ∈ s.completed) ∧
  (∀ u, s.loop = .closing u → ∃ b, (Command.commandFlushAndWait, u, b) ∈ s.completed) ∧
  (s.loop = .returned → s.chClosed = true) ∧
  (∀ e ∈ s.completed, e.2.2 ∈ s.sink)

/-- Only client `t` has had a `commandFlushAndWait` handled. -/
def OnlyInv {T : Type} (t : Nat) (s : System T) : Prop :=
  ∀ u b, (Command.commandFlushAndWait, u, b) ∈ s.completed → u = t

end Observer
namespace Observer

/-- A client program: two pushes around a `flush` and a `withTick`, before the
terminal `flushAndWait` is added. -/
def sampleOps : List (Op Nat) := [.push 1, .flush, .withTick 5, .push 2]

/-- A schedule of `sampleOps ++ [flushAndWait]` in which a tick fires and the
tick-started goroutine delivers its batch after the loop delivered a later one. -/
def sampleSchedule : List Label :=
  [.loopStart, .client 0, .tickFire, .loopTick, .loopRecv 0, .asyncDrain 0, .client 0,
   .client 0, .client 0, .client 0, .loopDrain, .loopSinkCall, .asyncSinkCall 0,
   .loopSinkRet, .loopAfter, .loopUpdate, .loopRecv 0, .loopDrain, .asyncSinkRet 0,
   .loopSinkCall, .loopSinkRet, .loopAfter, .loopClose, .client 0, .loopRecvClosed]

/-- The state that `sampleSchedule` reaches. -/
def sampleFinal : System Nat :=
  { queue := ⟨[]⟩
    chClosed := true
    tickerUpdate := none
    ticker := some ⟨5, true, false⟩
    tickerPeriod := 5
    sink := [[2], [1], []]
    loop := .returned
    asyncs := [.finished]
    clients := [⟨[], .entry⟩]
    retired := [⟨1000000000, true, false⟩]
    cmdLog := [.commanFlush, .commandFlushAndWait]
    completed := [(.commanFlush, 0, [2]), (.commandFlushAndWait, 0, [])] }

/-- Two clients: one makes the terminal call, the other pushes and retunes the
ticker. -/
def samplePair : List (List (Op Nat)) := [[.flushAndWait], [.push 3, .withTick 9]]

/-- A schedule of `samplePair` up to the return of `flushAndWait`. -/
def samplePairSchedule : List Label :=
  [.loopStart, .client 1, .loopRecv 0, .client 1, .loopDrain, .loopSinkCall, .client 1,
   .loopSinkRet, .loopAfter, .loopClose, .client 0]

/-- The state that `samplePairSchedule` reaches. -/
def samplePairFinal : System Nat :=
  { queue := ⟨[]⟩
    chClosed := true
    tickerUpdate := none
    ticker := some ⟨1000000000, true, false⟩
    tickerPeriod := 9
    sink := [[3]]
    loop := .select
    asyncs := []
    clients := [⟨[], .entry⟩, ⟨[.withTick 9], .wt42⟩]
    retired := []
    cmdLog := [.commandFlushAndWait]
    completed := [(.commandFlushAndWait, 0, [3])] }

/-- A started handler with a tick waiting, serving one client that is about to
call `withTick 7`. -/
def sampleRunning : System Nat :=
  { queue := ⟨[4]⟩
    chClosed := false
    tickerUpdate := none
    ticker := some ⟨1000000000, false, true⟩
    tickerPeriod := 1000000000
    sink := []
    loop := .select
    asyncs := []
    clients := [⟨[.withTick 7], .entry⟩]
    retired := []
    cmdLog := []
    completed := [] }

/-- A handler after its terminal stop, with a client about to call `flush`. -/
def sampleStopped : System Nat :=
  { queue := ⟨[]⟩
    chClosed := true
    tickerUpdate := none
    ticker := some ⟨1000000000, true, false⟩
    tickerPeriod := 1000000000
    sink := [[]]
    loop := .returned
    asyncs := []
    clients := [⟨[.flush], .entry⟩]
    retired := []
    cmdLog := [.commandFlushAndWait]
    completed := [(.commandFlushAndWait, 0, [])] }

end Observer
namespace Langfuse

open Model

/-- What a create call does to the dispatched events, from state `l` to `l'`,
for an entity that came with name `name` and trace ID `inTraceID`: with an empty
trace ID, exactly two events are added, first a trace-create event whose body is
a trace named `name` with a non-empty ID, then an event of type `evType` with
body `body`, and `outTraceID` is that trace's ID; otherwise exactly one event is
added, of type `evType` with body `body`, and `outTraceID` is `inTraceID`. -/
def CreatesTraceThen (l l' : Langfuse) (name inTraceID : String)
    (evType : IngestionEventType) (body : Body) (outTraceID : String) : Prop :=
  if inTraceID = "" then
    ∃ tev eev tr, l'.dispatched = l.dispatched ++ [tev, eev] ∧
      tev.Type_ = IngestionEventTypeTraceCreate ∧ tev.Body = .trace tr ∧
      tr.Name = name ∧ tr.ID ≠ "" ∧
      eev.Type_ = evType ∧ eev.Body = body ∧ outTraceID = tr.ID
  else
    ∃ eev, l'.dispatched = l.dispatched ++ [eev] ∧
      eev.Type_ = evType ∧ eev.Body = body ∧ outTraceID = inTraceID

end Langfuse

/-! ## Lemmas on the transition system -/

namespace Observer
variable {T : Type}

theorem NewTicker_eq_none (d : Duration) : NewTicker d = none ↔ d ≤ 0 := by
  unfold NewTicker; split <;> simp [*]

theorem NewTicker_pos (d : Duration) (h : 0 < d) : NewTicker d = some ⟨d, false, false⟩ := by
  unfold NewTicker; rw [if_neg (not_le.mpr h)]

theorem clientStep_frame (s s' : System T) (t : Nat) (c : Client T)
    (h : clientStep s t c = some s') :
    s'.loop = s.loop ∧ s'.chClosed = s.chClosed ∧ s'.sink = s.sink ∧ s'.asyncs = s.asyncs ∧
      s'.cmdLog = s.cmdLog ∧ s'.ticker = s.ticker ∧ s'.retired = s.retired ∧
      s'.completed = s.completed := by
  unfold clientStep at h
  (split at h <;> (try unfold withTick at h) <;> (try unfold flush at h) <;>
    (try unfold flushAndWait at h) <;> (repeat' split at h) <;> simp at h)
  all_goals subst h
  all_goals simp

theorem reachable_induction (P : System T → Prop) (s0 : System T) (h0 : P s0)
    (hstep : ∀ s l s', P s → step s l = some s' → P s') :
    ∀ s, Reachable s0 s → P s := by
  intro s ⟨ls, hls⟩
  induction ls generalizing s0 with
  | nil => simp [run] at hls; subst hls; exact h0
  | cons l ls ih =>
    simp only [run] at hls
    cases hs : step s0 l with
    | none => simp [hs] at hls
    | some s1 =>
      simp [hs] at hls
      exact ih s1 (hstep _ _ _ h0 hs) hls

theorem step_clients_length (s s' : System T) (l : Label) (h : step s l = some s') :
    s'.clients.length = s.clients.length := by
  cases l <;> simp only [step, listen, goHandle] at h
  case client t =>
    split at h
    · unfold clientStep at h
      (split at h <;> (try unfold withTick at h) <;> (try unfold flush at h) <;>
        (try unfold flushAndWait at h) <;> (repeat' split at h) <;> simp at h)
      all_goals subst h
      all_goals simp
    · simp at h
  all_goals (repeat' split at h)
  all_goals (simp at h)
  all_goals (subst h)
  all_goals simp

theorem sum_map_set {α : Type} (f : α → Multiset T) (l : List α) (i : Nat) (a x : α)
    (h : l[i]? = some a) :
    ((l.set i x).map f).sum + f a = (l.map f).sum + f x := by
  induction l generalizing i with
  | nil => simp at h
  | cons b l ih =>
    cases i with
    | zero =>
      simp at h; subst h
      simp [add_comm, add_left_comm]
    | succ i =>
      simp at h
      have := ih i h
      simp only [List.set_cons_succ, List.map_cons, List.sum_cons, add_assoc, this]

theorem pushes_afterSend (c : Client T) (cmd : Command) (h : sending c = some cmd) :
    pushes (afterSend c).prog = pushes c.prog := by
  unfold sending at h
  split at h <;> simp at h <;> simp [afterSend, pushes, *]

theorem pushes_receiving (c : Client T) (h : receiving c = true) :
    pushes c.prog.tail = pushes c.prog := by
  unfold receiving at h
  split at h
  · simp [pushes, *]
  · simp at h

theorem sum_map_set_same {α : Type} (f : α → Multiset T) (l : List α) (i : Nat) (a x : α)
    (h : l[i]? = some a) (hf : f x = f a) : ((l.set i x).map f).sum = (l.map f).sum := by
  have := sum_map_set f l i a x h
  rw [hf] at this
  exact add_right_cancel this

theorem sum_map_set_of_zero {α : Type} (f : α → Multiset T) (l : List α) (i : Nat) (a x : α)
    (h : l[i]? = some a) (hf : f a = 0) :
    ((l.set i x).map f).sum = (l.map f).sum + f x := by
  have := sum_map_set f l i a x h
  rwa [hf, add_zero] at this

theorem sum_map_set_to_zero {α : Type} (f : α → Multiset T) (l : List α) (i : Nat) (a x : α)
    (h : l[i]? = some a) (hf : f x = 0) :
    ((l.set i x).map f).sum + f a = (l.map f).sum := by
  have := sum_map_set f l i a x h
  rwa [hf, add_zero] at this

theorem mass_clientStep (s s' : System T) (t : Nat) (c : Client T)
    (hc : s.clients[t]? = some c) (h : clientStep s t c = some s') : mass s' = mass s := by
  unfold clientStep at h
  split at h
  · simp at h
  · rename_i e rest hp
    split at h
    · simp at h; subst h
      have h1 := sum_map_set (fun c : Client T => (pushes c.prog : Multiset T)) s.clients t c
        ⟨rest, .entry⟩ hc
      simp only [hp, pushes] at h1
      rw [show ((e :: pushes rest : List T) : Multiset T) = {e} + (pushes rest : Multiset T)
        from rfl, ← add_assoc] at h1
      have h2 := add_right_cancel h1
      simp only [mass, Queue.push]
      rw [← h2, ← Multiset.coe_add, Multiset.coe_singleton]
      abel
    · simp at h
  all_goals
    (try unfold withTick at h)
    (try unfold flush at h)
    (try unfold flushAndWait at h)
    ((repeat' split at h) <;> simp at h)
  all_goals
    subst h
    simp only [mass]
    rw [sum_map_set_same _ _ _ _ _ hc (by simp [pushes, *])]

theorem mass_step (s s' : System T) (l : Label) (h : step s l = some s') : mass s' = mass s := by
  cases l <;> simp only [step, listen, goHandle] at h
  case client t =>
    split at h
    · exact mass_clientStep _ _ _ _ (by assumption) h
    · simp at h
  case handoff a b =>
    split at h
    · rename_i ca cb hca hcb
      split at h
      · simp at h
      · split at h
        · rename_i hn _ cmd hs
          simp at h; subst h
          simp only [not_or, Bool.not_eq_true, Bool.not_eq_false] at hn
          have hcb' : (s.clients.set a (afterSend ca))[b]? = some cb := by
            rw [List.getElem?_set_ne hn.1]; exact hcb
          simp only [mass]
          rw [sum_map_set_same _ _ _ _ _ hcb' (by simp [pushes_receiving _ hn.2.2]),
            sum_map_set_same _ _ _ _ _ hca (by simp [pushes_afterSend _ _ hs])]
        · simp at h
    · simp at h
  case asyncDrain i =>
    split at h
    · rename_i hi
      simp at h; subst h
      have h1 : ((s.asyncs.set i (.drained s.queue.items)).map
          fun a => (a.held : Multiset T)).sum =
          (s.asyncs.map fun a => (a.held : Multiset T)).sum + (s.queue.items : Multiset T) :=
        sum_map_set_of_zero _ _ _ _ _ hi rfl
      simp only [mass, h1, Queue.All, Multiset.coe_nil, add_zero]
      abel
    · simp at h
  case asyncSinkCall i =>
    split at h
    · rename_i b hi
      simp at h; subst h
      have h1 : ((s.asyncs.set i .inSink).map fun a => (a.held : Multiset T)).sum
          + (b : Multiset T) = (s.asyncs.map fun a => (a.held : Multiset T)).sum :=
        sum_map_set_to_zero _ _ _ _ _ hi rfl
      simp only [mass, ← h1, List.flatten_append, List.flatten_cons, List.flatten_nil,
        List.append_nil, ← Multiset.coe_add]
      abel
    · simp at h
  case asyncSinkRet i =>
    split at h
    · rename_i hi
      simp at h; subst h
      simp only [mass]
      rw [sum_map_set_same _ _ _ _ _ hi (by simp [AsyncPc.held])]
    · simp at h
  case loopRecv t =>
    split at h
    · split at h
      · simp at h
      · split at h
        · rename_i hl hc _ _ cmd hs
          simp at h; subst h
          simp only [mass, LoopPc.held, hl]
          rw [sum_map_set_same _ _ _ _ _ hc (by simp [pushes_afterSend _ _ hs])]
        · simp at h
    · simp at h
  all_goals
    rcases s with ⟨q, cl, tu, tk, tp, sink, lp, as, cs, rt, lg, cp⟩
    simp only at h
    (repeat' split at h)
  all_goals (simp at h)
  all_goals (subst h)
  all_goals (simp only [mass, LoopPc.held, Queue.All, List.flatten_append, List.flatten_cons,
    List.flatten_nil, List.append_nil, ← Multiset.coe_add, Multiset.coe_nil, add_zero,
    List.map_append, List.sum_append, List.map_cons, List.map_nil, List.sum_cons, List.sum_nil,
    AsyncPc.held])
  all_goals (try abel)

theorem step_beforeFAW (s s' : System T) (l : Label) (h : step s l = some s')
    (hc : s.chClosed = false) (hl : s.loop.beforeFAW) (hn : ∀ t, l ≠ .loopRecv t) :
    s'.chClosed = false ∧ s'.loop.beforeFAW := by
  cases l <;> simp only [step, listen, goHandle] at h
  case client t =>
    split at h
    · have := clientStep_frame _ _ _ _ h
      simp only [this, hc, hl, and_self]
    · simp at h
  case loopRecv t => exact absurd rfl (hn t)
  all_goals
    rcases s with ⟨q, cl, tu, tk, tp, sink, lp, as, cs, rt, lg, cp⟩
    simp only at h hc hl
    (repeat' split at h)
  all_goals (simp at h)
  all_goals (subst h)
  all_goals (simp_all [LoopPc.beforeFAW])

theorem step_inFAW (s s' : System T) (l : Label) (t : Nat) (h : step s l = some s')
    (hc : s.chClosed = false) (hl : s.loop.inFAW t) :
    (s'.chClosed = false ∧ s'.loop.inFAW t) ∨ (s'.chClosed = true ∧ s'.loop.idle) := by
  cases l <;> simp only [step, listen, goHandle] at h
  case client t =>
    split at h
    · have := clientStep_frame _ _ _ _ h
      simp only [this, hc, hl, and_self, true_or]
    · simp at h
  all_goals
    rcases s with ⟨q, cl, tu, tk, tp, sink, lp, as, cs, rt, lg, cp⟩
    simp only at h hc hl
    (repeat' split at h)
  all_goals (simp at h)
  all_goals (subst h)
  all_goals (simp_all [LoopPc.inFAW, LoopPc.idle])

theorem step_idle (s s' : System T) (l : Label) (h : step s l = some s')
    (hc : s.chClosed = true) (hl : s.loop.idle) :
    s'.chClosed = true ∧ s'.loop.idle := by
  cases l <;> simp only [step, listen, goHandle] at h
  case client t =>
    split at h
    · have := clientStep_frame _ _ _ _ h
      simp only [this, hc, hl, and_self]
    · simp at h
  all_goals
    rcases s with ⟨q, cl, tu, tk, tp, sink, lp, as, cs, rt, lg, cp⟩
    simp only at h hc hl
    (repeat' split at h)
  all_goals (simp at h)
  all_goals (subst h)
  all_goals (simp_all [LoopPc.idle])

theorem step_clients (s s' : System T) (l : Label) (h : step s l = some s') :
    (s'.clients = s.clients ∧ ∀ t, l ≠ .loopRecv t) ∨
    (∃ t c cmd, l = .loopRecv t ∧ s.clients[t]? = some c ∧ sending c = some cmd ∧
        s.loop = .select ∧ s.chClosed = false ∧ s'.clients = s.clients.set t (afterSend c) ∧
        s'.loop = .handling cmd t ∧ s'.chClosed = false) ∨
    (∃ t c, l = .client t ∧ s.clients[t]? = some c ∧ clientStep s t c = some s') ∨
    (∃ a b ca cb cmd, l = .handoff a b ∧ a ≠ b ∧ s.clients[a]? = some ca ∧
        s.clients[b]? = some cb ∧ receiving cb = true ∧ sending ca = some cmd ∧
        s.chClosed = false ∧
        s'.clients = (s.clients.set a (afterSend ca)).set b ⟨cb.prog.tail, .entry⟩ ∧
        s'.loop = s.loop ∧ s'.chClosed = s.chClosed) := by
  cases l <;> simp only [step, listen, goHandle] at h
  case client t =>
    split at h
    · rename_i c hc
      exact Or.inr (Or.inr (Or.inl ⟨t, c, rfl, hc, h⟩))
    · simp at h
  case loopRecv t =>
    split at h
    · split at h
      · simp at h
      · split at h
        · rename_i c hl hc hcl _ cmd hs
          simp at h; subst h
          exact Or.inr (Or.inl ⟨t, c, cmd, rfl, hc, hs, hl, by simpa using hcl, rfl, rfl,
            by simpa using hcl⟩)
        · simp at h
    · simp at h
  case handoff a b =>
    split at h
    · rename_i ca cb hca hcb
      split at h
      · simp at h
      · split at h
        · rename_i hn _ cmd hs
          simp at h; subst h
          simp only [not_or, Bool.not_eq_true, Bool.not_eq_false] at hn
          exact Or.inr (Or.inr (Or.inr ⟨a, b, ca, cb, cmd, rfl, hn.1, hca, hcb, hn.2.2, hs,
            hn.2.1, rfl, rfl, rfl⟩))
        · simp at h
    · simp at h
  all_goals
    left
    rcases s with ⟨q, cl, tu, tk, tp, sink, lp, as, cs, rt, lg, cp⟩
    simp only at h
    (repeat' split at h)
  all_goals (simp at h)
  all_goals (subst h)
  all_goals simp

theorem sending_cases (c : Client T) (cmd : Command) (h : sending c = some cmd) :
    c.pc = .entry ∧
    ((∃ rest, c.prog = .flush :: rest ∧ cmd = .commanFlush ∧ afterSend c = ⟨rest, .entry⟩) ∨
     (∃ rest, c.prog = .flushAndWait :: rest ∧ cmd = .commandFlushAndWait ∧
        afterSend c = ⟨.flushAndWait :: rest, .faw81⟩)) := by
  unfold sending at h
  split at h <;> simp at h <;> subst h <;> simp [afterSend, *]

theorem receiving_cases (c : Client T) (h : receiving c = true) :
    c.pc = .faw81 ∧ ∃ rest, c.prog = .flushAndWait :: rest := by
  unfold receiving at h
  split at h <;> simp at h
  simp [*]

theorem quiet_not_sending (c : Client T) (cmd : Command) (hq : Quiet c.prog)
    (h : sending c = some cmd) : False := by
  obtain ⟨_, h | h⟩ := sending_cases c cmd h
  · obtain ⟨rest, hp, _⟩ := h
    exact (hq .flush (by simp [hp])).1 rfl
  · obtain ⟨rest, hp, _⟩ := h
    exact (hq .flushAndWait (by simp [hp])).2 rfl

theorem quiet_not_receiving (c : Client T) (hq : Quiet c.prog)
    (h : receiving c = true) : False := by
  obtain ⟨_, rest, hp⟩ := receiving_cases c h
  exact (hq .flushAndWait (by simp [hp])).2 rfl

theorem clientStep_cases (s s' : System T) (t : Nat) (c : Client T)
    (h : clientStep s t c = some s') :
    ∃ c', s'.clients = s.clients.set t c' ∧
      ((∃ op rest, c.prog = op :: rest ∧ op ≠ .flush ∧ op ≠ .flushAndWait ∧ c.pc ≠ .faw81 ∧
          c'.pc ≠ .faw81 ∧ (c'.prog = c.prog ∨ c'.prog = rest)) ∨
       (s.chClosed = true ∧ c'.prog = c.prog ∧ c'.pc = .panicked ∧ c.pc = .entry) ∨
       (s.chClosed = true ∧ c.pc = .faw81 ∧
          ∃ rest, c.prog = .flushAndWait :: rest ∧ c' = ⟨rest, .entry⟩)) := by
  unfold clientStep at h
  (split at h <;> (try unfold withTick at h) <;> (try unfold flush at h) <;>
    (try unfold flushAndWait at h) <;> (repeat' split at h) <;> simp at h)
  all_goals subst h
  all_goals (refine ⟨_, rfl, ?_⟩; simp [*])
  all_goals exact ⟨_, _, ⟨rfl, rfl⟩, by simp, by simp, rfl⟩

theorem quiet_tail (op : Op T) (rest : List (Op T)) (h : Quiet (op :: rest)) : Quiet rest :=
  fun o ho => h o (List.mem_cons_of_mem _ ho)

theorem waitInv_step (t : Nat) (post : List (Op T)) (s s' : System T) (l : Label)
    (hinv : WaitInv t post s) (h : step s l = some s') : WaitInv t post s' := by
  obtain ⟨hq, c, hc, hph⟩ := hinv
  rcases step_clients s s' l h with ⟨hcs, hn⟩ | ⟨u, cu, cmd, rfl, hcu, hs, hl, hcl, hcs, hl', hcl'⟩ |
    ⟨u, cu, rfl, hcu, hstep⟩ | ⟨a, b, ca, cb, cmd, rfl, hab, hca, hcb, hr, hs, hcl, hcs, _, _⟩
  · -- the clients are untouched
    refine ⟨by rw [hcs]; exact hq, c, by rw [hcs]; exact hc, ?_⟩
    rcases hph with ⟨rest, hp, hr, hpc, hcl, hl⟩ | ⟨hp, hpc, ⟨hcl, hl⟩ | ⟨hcl, hl⟩⟩ | ⟨hp, hcl, hl⟩
    · exact Or.inl ⟨rest, hp, hr, hpc, step_beforeFAW s s' l h hcl hl hn⟩
    · exact Or.inr (Or.inl ⟨hp, hpc, step_inFAW s s' l t h hcl hl⟩)
    · exact Or.inr (Or.inl ⟨hp, hpc, Or.inr (step_idle s s' l h hcl hl)⟩)
    · exact Or.inr (Or.inr ⟨hp, step_idle s s' l h hcl hl⟩)
  · -- the loop receives a command
    by_cases hut : u = t
    · subst hut
      rw [hc] at hcu; cases hcu
      have hlt : u < s.clients.length := (List.getElem?_eq_some_iff.mp hc).1
      refine ⟨?_, afterSend c, by rw [hcs]; simp [hlt], ?_⟩
      · intro j cj hj hne
        rw [hcs, List.getElem?_set_ne (Ne.symm hne)] at hj
        exact hq j cj hj hne
      obtain ⟨hentry, hcase⟩ := sending_cases c cmd hs
      rcases hph with ⟨rest, hp, hr, hpc, _, _⟩ | ⟨hp, hpc, _⟩ | ⟨hp, hcl2, _⟩
      · rcases hcase with ⟨r0, hp0, hcmd, haft⟩ | ⟨r0, hp0, hcmd, haft⟩
        · cases rest with
          | nil => simp [hp0] at hp
          | cons op rest1 =>
            simp [hp0] at hp
            refine Or.inl ⟨rest1, by rw [haft]; exact hp.2, ?_, by rw [haft]; simp, hcl', ?_⟩
            · intro hmem; exact hr (List.mem_cons_of_mem _ hmem)
            · rw [hl', hcmd]; simp [LoopPc.beforeFAW]
        · cases rest with
          | nil =>
            simp [hp0] at hp
            refine Or.inr (Or.inl ⟨by rw [haft, hp], by rw [haft], Or.inl ⟨hcl', ?_⟩⟩)
            rw [hl', hcmd]; simp [LoopPc.inFAW]
          | cons op rest1 =>
            simp [hp0] at hp
            exact absurd (by simp [← hp.1]) hr
      · rw [hpc] at hentry; cases hentry
      · rw [hcl] at hcl2; cases hcl2
    · exact absurd hs (by
        intro hs; exact quiet_not_sending cu cmd (hq u cu hcu hut) hs)
  · -- a client moves on its own
    obtain ⟨hfl, hfc, _⟩ := clientStep_frame s s' u cu hstep
    obtain ⟨c', hcs, hcase⟩ := clientStep_cases s s' u cu hstep
    have hlt : u < s.clients.length := (List.getElem?_eq_some_iff.mp hcu).1
    by_cases hut : u = t
    · subst hut
      rw [hc] at hcu; cases hcu
      refine ⟨?_, c', by rw [hcs]; simp [hlt], ?_⟩
      · intro j cj hj hne
        rw [hcs, List.getElem?_set_ne (Ne.symm hne)] at hj
        exact hq j cj hj hne
      rw [hfl, hfc]
      rcases hph with ⟨rest, hp, hr, hpc, hcl, hl⟩ | ⟨hp, hpc, hdis⟩ | ⟨hp, hcl, hl⟩
      · rcases hcase with ⟨op, r0, hp0, hof, hoa, _, hpc', hprog⟩ | ⟨hcl2, _⟩ | ⟨hcl2, _⟩
        · cases rest with
          | nil =>
            simp [hp0] at hp
            exact absurd hp.1 hoa
          | cons op1 rest1 =>
            simp [hp0] at hp
            rcases hprog with hprog | hprog
            · exact Or.inl ⟨op1 :: rest1, by rw [hprog, hp0, hp.1, hp.2]; simp, hr, hpc', hcl, hl⟩
            · exact Or.inl ⟨rest1, by rw [hprog, hp.2],
                fun hmem => hr (List.mem_cons_of_mem _ hmem), hpc', hcl, hl⟩
        · rw [hcl] at hcl2; cases hcl2
        · rw [hcl] at hcl2; cases hcl2
      · rcases hcase with ⟨op, r0, hp0, _, _, hpc0, _⟩ | ⟨_, _, _, hpc0⟩ | ⟨hcl2, _, r0, hp0, hc'⟩
        · exact absurd hpc hpc0
        · rw [hpc] at hpc0; cases hpc0
        · rcases hdis with ⟨hcl, _⟩ | ⟨hcl, hl⟩
          · rw [hcl] at hcl2; cases hcl2
          · rw [hp] at hp0; cases hp0
            exact Or.inr (Or.inr ⟨by rw [hc'], hcl, hl⟩)
      · refine Or.inr (Or.inr ⟨?_, hcl, hl⟩)
        rcases hcase with ⟨op, r0, hp0, _, _, _, _, hprog⟩ | ⟨_, hprog, _⟩ | ⟨_, _, r0, hp0, hc'⟩
        · rcases hprog with hprog | hprog
          · rw [hprog]; exact hp
          · rw [hprog]; rw [hp0] at hp; simp at hp; omega
        · rw [hprog]; exact hp
        · rw [hc']; rw [hp0] at hp; simp at hp ⊢; omega
    · refine ⟨?_, c, by rw [hcs, List.getElem?_set_ne hut]; exact hc, by rw [hfl, hfc]; exact hph⟩
      intro j cj hj hne
      by_cases hju : j = u
      · subst hju
        rw [hcs] at hj; simp [hlt] at hj; subst hj
        have hqu := hq j cu hcu hne
        rcases hcase with ⟨op, r0, hp0, _, _, _, _, hprog⟩ | ⟨_, hprog, _⟩ | ⟨_, _, r0, hp0, hc'⟩
        · rcases hprog with hprog | hprog
          · rw [hprog]; exact hqu
          · rw [hprog]; rw [hp0] at hqu; exact quiet_tail _ _ hqu
        · rw [hprog]; exact hqu
        · rw [hc']; rw [hp0] at hqu; exact quiet_tail _ _ hqu
      · rw [hcs, List.getElem?_set_ne (Ne.symm hju)] at hj
        exact hq j cj hj hne
  · -- a send meets the receive of another client: excluded
    exfalso
    by_cases hbt : b = t
    · subst hbt
      exact quiet_not_sending ca cmd (hq a ca hca hab) hs
    · exact quiet_not_receiving cb (hq b cb hcb hbt) hr

theorem step_mono (s s' : System T) (l : Label) (h : step s l = some s') :
    (∀ b ∈ s.sink, b ∈ s'.sink) ∧ (∀ c ∈ s.cmdLog, c ∈ s'.cmdLog) := by
  cases l <;> simp only [step, listen, goHandle] at h
  case client t =>
    split at h
    · have := clientStep_frame _ _ _ _ h
      simp only [this]
      exact ⟨fun _ hb => hb, fun _ hc => hc⟩
    · simp at h
  all_goals
    rcases s with ⟨q, cl, tu, tk, tp, sink, lp, as, cs, rt, lg, cp⟩
    simp only at h
    (repeat' split at h)
  all_goals (simp at h)
  all_goals (subst h)
  all_goals (constructor <;> intro x hx <;> simp [hx])

theorem step_loop_view (s s' : System T) (l : Label) (h : step s l = some s') :
    (s'.loop = s.loop ∧ s'.chClosed = s.chClosed ∧ s'.completed = s.completed) ∨
    (s.loop = .notStarted ∧ (s'.loop = .select ∨ s'.loop = .panicked) ∧
      s'.chClosed = s.chClosed ∧ s'.completed = s.completed) ∨
    (s.loop = .select ∧ (s'.loop = .select ∨ s'.loop = .panicked) ∧
      s'.chClosed = s.chClosed ∧ s'.completed = s.completed) ∨
    (s.loop = .select ∧ s.chClosed = true ∧ s'.loop = .returned ∧ s'.chClosed = true ∧
      s'.completed = s.completed) ∨
    (∃ c u, s.loop = .select ∧ s'.loop = .handling c u ∧ c ∈ s'.cmdLog ∧
      s'.chClosed = s.chClosed ∧ s'.completed = s.completed) ∨
    (∃ c u b, s.loop = .handling c u ∧ s'.loop = .drained c u b ∧
      s'.chClosed = s.chClosed ∧ s'.completed = s.completed) ∨
    (∃ c u b, s.loop = .drained c u b ∧ s'.loop = .inSink c u b ∧ b ∈ s'.sink ∧
      s'.chClosed = s.chClosed ∧ s'.completed = s.completed) ∨
    (∃ c u b, s.loop = .inSink c u b ∧ s'.loop = .handled c u ∧
      s'.chClosed = s.chClosed ∧ s'.completed = s.completed ++ [(c, u, b)]) ∨
    (∃ u, s.loop = .handled .commandFlushAndWait u ∧ s'.loop = .closing u ∧
      s'.chClosed = s.chClosed ∧ s'.completed = s.completed) ∨
    (∃ c u, s.loop = .handled c u ∧ c ≠ .commandFlushAndWait ∧ s'.loop = .select ∧
      s'.chClosed = s.chClosed ∧ s'.completed = s.completed) ∨
    (∃ u, s.loop = .closing u ∧ s'.loop = .select ∧ s'.chClosed = true ∧
      s'.completed = s.completed) := by
  cases l <;> simp only [step, listen, goHandle] at h
  case client t =>
    split at h
    · have := clientStep_frame _ _ _ _ h
      exact Or.inl ⟨this.1, this.2.1, this.2.2.2.2.2.2.2⟩
    · simp at h
  all_goals
    rcases s with ⟨q, cl, tu, tk, tp, sink, lp, as, cs, rt, lg, cp⟩
    simp only at h
    (repeat' split at h)
  all_goals (simp at h)
  all_goals (subst h)
  all_goals simp
  all_goals
    first
      | assumption
      | exact ⟨_, _, _, ⟨rfl, rfl, rfl⟩, Or.inr rfl⟩
      | exact ⟨_, _, _, ⟨rfl, rfl, rfl⟩, ⟨rfl, rfl⟩, rfl, rfl, rfl⟩

theorem stopInv_step (s s' : System T) (l : Label) (hinv : StopInv s)
    (h : step s l = some s') : StopInv s' := by
  obtain ⟨h1, h2, h3, h4, h5, h6, h7⟩ := hinv
  obtain ⟨hsink, hlog⟩ := step_mono s s' l h
  have hkeep : s'.completed = s.completed → Processed s → Processed s' := by
    rintro hcp ⟨ha, u, b, hb, hbs⟩
    exact ⟨hlog _ ha, u, b, by rw [hcp]; exact hb, hsink _ hbs⟩
  have h7keep : s'.completed = s.completed → ∀ e ∈ s'.completed, e.2.2 ∈ s'.sink := by
    intro hcp e he
    rw [hcp] at he
    exact hsink _ (h7 e he)
  rcases step_loop_view s s' l h with ⟨hl, hcl, hcp⟩ | ⟨hl, hl', hcl, hcp⟩ |
    ⟨hl, hl', hcl, hcp⟩ | ⟨hl, hcl0, hl', hcl, hcp⟩ | ⟨c, u, hl, hl', hc, hcl, hcp⟩ |
    ⟨c, u, b, hl, hl', hcl, hcp⟩ | ⟨c, u, b, hl, hl', hb, hcl, hcp⟩ |
    ⟨c, u, b, hl, hl', hcl, hcp⟩ | ⟨u, hl, hl', hcl, hcp⟩ | ⟨c, u, hl, hne, hl', hcl, hcp⟩ |
    ⟨u, hl, hl', hcl, hcp⟩
  · refine ⟨fun hc => hkeep hcp (h1 (hcl ▸ hc)), ?_, ?_, ?_, ?_, ?_, h7keep hcp⟩
    · intro c hc; rw [hl] at hc; exact hlog _ (h2 c hc)
    · intro c u b hb; rw [hl] at hb; exact hsink _ (h3 c u b hb)
    · intro c u hb; rw [hl] at hb; rw [hcp]; exact h4 c u hb
    · intro u hb; rw [hl] at hb; rw [hcp]; exact h5 u hb
    · intro hr; rw [hl] at hr; rw [hcl]; exact h6 hr
  · refine ⟨fun hc => hkeep hcp (h1 (hcl ▸ hc)), ?_, ?_, ?_, ?_, ?_, h7keep hcp⟩ <;>
      rcases hl' with hl' | hl' <;> simp [hl', LoopPc.cmd]
  · refine ⟨fun hc => hkeep hcp (h1 (hcl ▸ hc)), ?_, ?_, ?_, ?_, ?_, h7keep hcp⟩ <;>
      rcases hl' with hl' | hl' <;> simp [hl', LoopPc.cmd]
  · refine ⟨fun _ => hkeep hcp (h1 hcl0), ?_, ?_, ?_, ?_, ?_, h7keep hcp⟩ <;>
      simp [hl', LoopPc.cmd, hcl]
  · refine ⟨fun hc => hkeep hcp (h1 (hcl ▸ hc)), ?_, ?_, ?_, ?_, ?_, h7keep hcp⟩ <;>
      simp [hl', LoopPc.cmd, hc]
  · refine ⟨fun hc => hkeep hcp (h1 (hcl ▸ hc)), ?_, ?_, ?_, ?_, ?_, h7keep hcp⟩ <;>
      simp [hl', LoopPc.cmd]
    exact hlog _ (h2 c (by simp [hl, LoopPc.cmd]))
  · refine ⟨fun hc => hkeep hcp (h1 (hcl ▸ hc)), ?_, ?_, ?_, ?_, ?_, h7keep hcp⟩ <;>
      simp [hl', LoopPc.cmd, hb]
    exact hlog _ (h2 c (by simp [hl, LoopPc.cmd]))
  · have hbs : b ∈ s'.sink := hsink _ (h3 c u b hl)
    have hmem : (c, u, b) ∈ s'.completed := by rw [hcp]; simp
    have h7' : ∀ e ∈ s'.completed, e.2.2 ∈ s'.sink := by
      intro e he
      rw [hcp] at he
      rcases List.mem_append.mp he with he | he
      · exact hsink _ (h7 e he)
      · simp at he; subst he; exact hbs
    refine ⟨?_, ?_, ?_, ?_, ?_, ?_, h7'⟩
    · intro hc
      obtain ⟨ha, u0, b0, hb0, hbs0⟩ := h1 (hcl ▸ hc)
      exact ⟨hlog _ ha, u0, b0, by rw [hcp]; simp [hb0], hsink _ hbs0⟩
    · intro c0 hc0
      rw [hl'] at hc0; simp [LoopPc.cmd] at hc0; subst hc0
      exact hlog _ (h2 c (by simp [hl, LoopPc.cmd]))
    · simp [hl']
    · intro c0 u0 he
      rw [hl'] at he; cases he
      exact ⟨b, hmem⟩
    · simp [hl']
    · simp [hl']
  · obtain ⟨b, hb⟩ := h4 _ u hl
    refine ⟨fun hc => hkeep hcp (h1 (hcl ▸ hc)), ?_, ?_, ?_, ?_, ?_, h7keep hcp⟩
    · intro c0 hc0
      rw [hl'] at hc0; simp [LoopPc.cmd] at hc0; subst hc0
      exact hlog _ (h2 _ (by simp [hl, LoopPc.cmd]))
    · simp [hl']
    · simp [hl']
    · intro u0 he
      rw [hl'] at he; cases he
      exact ⟨b, by rw [hcp]; exact hb⟩
    · simp [hl']
  · refine ⟨fun hc => hkeep hcp (h1 (hcl ▸ hc)), ?_, ?_, ?_, ?_, ?_, h7keep hcp⟩ <;>
      simp [hl', LoopPc.cmd]
  · obtain ⟨b, hb⟩ := h5 u hl
    have hlg : Command.commandFlushAndWait ∈ s.cmdLog := h2 _ (by simp [hl, LoopPc.cmd])
    refine ⟨fun _ => ⟨hlog _ hlg, u, b, by rw [hcp]; exact hb, hsink _ (h7 _ hb)⟩,
      ?_, ?_, ?_, ?_, ?_, h7keep hcp⟩ <;> simp [hl', LoopPc.cmd]

theorem onlyInv_step (t : Nat) (post : List (Op T)) (s s' : System T) (l : Label)
    (hw : WaitInv t post s) (ho : OnlyInv t s) (h : step s l = some s') : OnlyInv t s' := by
  have hkeep : s'.completed = s.completed → OnlyInv t s' := by
    intro hcp u b hb
    rw [hcp] at hb
    exact ho u b hb
  rcases step_loop_view s s' l h with ⟨_, _, hcp⟩ | ⟨_, _, _, hcp⟩ |
    ⟨_, _, _, hcp⟩ | ⟨_, _, _, _, hcp⟩ | ⟨_, _, _, _, _, _, hcp⟩ |
    ⟨_, _, _, _, _, _, hcp⟩ | ⟨_, _, _, _, _, _, _, hcp⟩ |
    ⟨c, u, b, hl, hl', hcl, hcp⟩ | ⟨_, _, _, _, hcp⟩ | ⟨_, _, _, _, _, _, hcp⟩ |
    ⟨_, _, _, _, hcp⟩
  · exact hkeep hcp
  · exact hkeep hcp
  · exact hkeep hcp
  · exact hkeep hcp
  · exact hkeep hcp
  · exact hkeep hcp
  · exact hkeep hcp
  · intro u0 b0 hb
    rw [hcp] at hb
    rcases List.mem_append.mp hb with hb | hb
    · exact ho u0 b0 hb
    · simp at hb
      obtain ⟨rfl, rfl, rfl⟩ := hb
      obtain ⟨_, c0, _, hph⟩ := hw
      rcases hph with ⟨_, _, _, _, _, hbf⟩ | ⟨_, _, ⟨_, hin⟩ | ⟨_, hid⟩⟩ | ⟨_, _, hid⟩
      · rw [hl] at hbf; simp [LoopPc.beforeFAW] at hbf
      · rw [hl] at hin; simp [LoopPc.inFAW] at hin; exact hin
      · rw [hl] at hid; simp [LoopPc.idle] at hid
      · rw [hl] at hid; simp [LoopPc.idle] at hid
  · exact hkeep hcp
  · exact hkeep hcp
  · exact hkeep hcp

theorem clientStep_queue (s s' : System T) (t : Nat) (c : Client T)
    (h : clientStep s t c = some s') :
    s'.queue = s.queue ∨ ∃ e rest, c.prog = .push e :: rest := by
  unfold clientStep at h
  (split at h <;> (try unfold withTick at h) <;> (try unfold flush at h) <;>
    (try unfold flushAndWait at h) <;> (repeat' split at h) <;> simp at h)
  all_goals subst h
  all_goals simp [*]

theorem pastDrain_not_beforeFAW (lp : LoopPc T) (h : lp.pastDrain) (h' : lp.beforeFAW) : False := by
  cases lp <;> simp_all [LoopPc.pastDrain, LoopPc.beforeFAW]

theorem drainedInv_step (s s' : System T) (l : Label) (hlen : s.clients.length = 1)
    (hw : WaitInv 0 [] s) (hd : DrainedInv s) (h : step s l = some s') : DrainedInv s' := by
  cases l <;> simp only [step, listen, goHandle] at h
  case client t =>
    split at h
    · rename_i c hc
      obtain ⟨hfl, hfc, _⟩ := clientStep_frame _ _ _ _ h
      intro htrig
      rw [hfl, hfc] at htrig
      rcases clientStep_queue _ _ _ _ h with hq | ⟨e, rest, hp⟩
      · rw [hq]; exact hd htrig
      · exfalso
        have ht : t = 0 := by
          have := (List.getElem?_eq_some_iff.mp hc).1
          omega
        subst ht
        obtain ⟨_, c0, hc0, hph⟩ := hw
        rw [hc] at hc0; cases hc0
        rcases hph with ⟨_, _, _, _, hcl, hl⟩ | ⟨hp0, _⟩ | ⟨hp0, _⟩
        · rcases htrig with h1 | h1
          · exact pastDrain_not_beforeFAW _ h1 hl
          · rw [hcl] at h1; cases h1
        · rw [hp] at hp0; cases hp0
        · rw [hp] at hp0; simp at hp0
    · simp at h
  all_goals
    rcases s with ⟨q, cl, tu, tk, tp, sink, lp, as, cs, rt, lg, cp⟩
    simp only [DrainedInv] at h hd
    (repeat' split at h)
  all_goals (simp at h)
  all_goals (subst h)
  all_goals (simp_all [DrainedInv, LoopPc.pastDrain, Queue.All])

theorem foldl_push_items (es : List T) (q : Queue T) :
    (es.foldl Queue.push q).items = q.items ++ es := by
  induction es generalizing q with
  | nil => simp
  | cons e es ih => simp [ih, Queue.push]

theorem waitInv_init (q : Queue T) (cs : List (List (Op T))) (t : Nat)
    (pre post : List (Op T)) (ht : cs[t]? = some (pre ++ .flushAndWait :: post))
    (hpre : .flushAndWait ∉ pre) (hothers : ∀ j p, cs[j]? = some p → j ≠ t → Quiet p) :
    WaitInv t post (newHandler q cs) := by
  refine ⟨?_, ⟨pre ++ .flushAndWait :: post, .entry⟩, by simp [newHandler, ht], ?_⟩
  · intro j c hj hne
    simp only [newHandler, List.getElem?_map, Option.map_eq_some'] at hj
    obtain ⟨p, hp, rfl⟩ := hj
    exact hothers j p hp hne
  · exact Or.inl ⟨pre, rfl, hpre, by simp, rfl, by simp [newHandler, LoopPc.beforeFAW]⟩

theorem idle_not_fawHandleOpen (lp : LoopPc T) (t : Nat) (h : lp.idle) : ¬ lp.fawHandleOpen t := by
  cases lp <;> simp_all [LoopPc.idle, LoopPc.fawHandleOpen]

theorem idle_held (lp : LoopPc T) (h : lp.idle) : lp.held = [] := by
  cases lp <;> simp_all [LoopPc.idle, LoopPc.held]

theorem sum_map_held (as : List (AsyncPc T)) :
    (as.map fun a => (a.held : Multiset T)).sum = ((as.map AsyncPc.held).flatten : Multiset T) := by
  induction as with
  | nil => simp
  | cons a as ih => simp [ih]

theorem sum_map_pushes_nil (cs : List (Client T)) (h : ∀ c ∈ cs, c.prog = []) :
    (cs.map fun c => (pushes c.prog : Multiset T)).sum = 0 := by
  induction cs with
  | nil => simp
  | cons c cs ih =>
    simp only [List.map_cons, List.sum_cons]
    rw [ih (fun c hc => h c (List.mem_cons_of_mem _ hc)), h c (List.mem_cons_self _ _)]
    simp [pushes]

theorem pushes_append (a b : List (Op T)) : pushes (a ++ b) = pushes a ++ pushes b := by
  induction a with
  | nil => simp [pushes]
  | cons op a ih => cases op <;> simp [pushes, ih]

theorem lone_sender_returned (q : Queue T) (cs : List (List (Op T)))
    (t : Nat) (pre post : List (Op T))
    (ht : cs[t]? = some (pre ++ .flushAndWait :: post))
    (hpre : .flushAndWait ∉ pre)
    (hothers : ∀ j p, cs[j]? = some p → j ≠ t → Quiet p)
    (s : System T) (hr : Reachable (newHandler q cs) s)
    (c : Client T) (hc : s.clients[t]? = some c) (hret : c.prog.length ≤ post.length) :
    s.loop.idle ∧ s.chClosed = true := by
  have hinv : WaitInv t post s :=
    reachable_induction (WaitInv t post) _ (waitInv_init q cs t pre post ht hpre hothers)
      (fun s l s' hs h => waitInv_step t post s s' l hs h) s hr
  obtain ⟨_, c', hc', hph⟩ := hinv
  rw [hc] at hc'; cases hc'
  rcases hph with ⟨rest, hp, _⟩ | ⟨hp, _⟩ | ⟨_, hcl, hl⟩
  · rw [hp] at hret; simp at hret; omega
  · rw [hp] at hret; simp at hret
  · exact ⟨hl, hcl⟩

/-- Claim C2, amended: terminal wait blocks until completion when the caller is
the only sender. Let client `t` be the only client whose program holds `flush`
or `flushAndWait` calls, with exactly one `flushAndWait` followed by `post`
(every other client only pushes and calls `withTick`). Then in every reachable
state, under every interleaving, once client `t` is past its `flushAndWait` call
(at most `post` is left of its program), the call of `handle` that the loop
made for the `commandFlushAndWait` of client `t` is among the completed ones,
that is, its sink call was made with some batch `b`, is on the sink record, and
has returned; moreover that invocation is no longer open, the loop is outside
any command, and the command channel is closed. -/
theorem flushAndWait_waits_for_its_sink_call (q : Queue T) (cs : List (List (Op T)))
    (t : Nat) (pre post : List (Op T))
    (ht : cs[t]? = some (pre ++ .flushAndWait :: post))
    (hpre : .flushAndWait ∉ pre)
    (hothers : ∀ j p, cs[j]? = some p → j ≠ t → Quiet p)
    (s : System T) (hr : Reachable (newHandler q cs) s)
    (c : Client T) (hc : s.clients[t]? = some c) (hret : c.prog.length ≤ post.length) :
    (∃ b, (Command.commandFlushAndWait, t, b) ∈ s.completed ∧ b ∈ s.sink) ∧
    ¬ s.loop.fawHandleOpen t ∧ s.loop.idle ∧ s.chClosed = true := by
  obtain ⟨hl, hcl⟩ := lone_sender_returned q cs t pre post ht hpre hothers s hr c hc hret
  have hinv : WaitInv t post s ∧ OnlyInv t s ∧ StopInv s := by
    refine reachable_induction (fun s : System T => WaitInv t post s ∧ OnlyInv t s ∧ StopInv s)
      _ ⟨waitInv_init q cs t pre post ht hpre hothers, ?_, ?_⟩ ?_ s hr
    · intro u b hb
      simp [newHandler] at hb
    · simp [StopInv, Processed, newHandler, LoopPc.cmd]
    · intro s l s' ⟨hw, ho, hs⟩ h
      exact ⟨waitInv_step t post s s' l hw h, onlyInv_step t post s s' l hw ho h,
        stopInv_step s s' l hs h⟩
  obtain ⟨_, ho, hs⟩ := hinv
  obtain ⟨_, u, b, hb, hbs⟩ := hs.1 hcl
  have hut : u = t := ho u b hb
  subst hut
  exact ⟨⟨b, hb, hbs⟩, idle_not_fawHandleOpen _ _ hl, hl, hcl⟩

/-- Claim C1, amended: no loss under flush, up to batches still held by
tick-started goroutines. One client runs `ops` (pushes, `flush` and `withTick`
calls, in any number and order) and then one `flushAndWait`, while ticks fire
at any time. In every reachable state in which the client has returned from
`flushAndWait`: the queue is empty, the loop holds no batch, and the batches the
sink has received together with the batches that goroutines started by ticks
have drained and not yet passed to the sink contain exactly the pushed events,
each exactly once; when no such goroutine holds a batch (in particular when no
tick fired) the batches the sink has received contain exactly the pushed events,
each exactly once. -/
theorem no_loss_under_flush (ops : List (Op T)) (hops : .flushAndWait ∉ ops)
    (s : System T) (hr : Reachable (newHandler ⟨[]⟩ [ops ++ [.flushAndWait]]) s)
    (hret : ∀ c ∈ s.clients, c.prog = []) :
    s.queue.items = [] ∧ s.loop.held = [] ∧
    (s.sink.flatten ++ (s.asyncs.map AsyncPc.held).flatten).Perm (pushes ops) ∧
    ((∀ a ∈ s.asyncs, a.held = []) → s.sink.flatten.Perm (pushes ops)) := by
  have h0 : WaitInv 0 [] (newHandler (⟨[]⟩ : Queue T) [ops ++ [.flushAndWait]]) :=
    waitInv_init _ _ 0 ops [] (by simp) hops (by
      intro j p hj hne
      cases j with
      | zero => exact absurd rfl hne
      | succ j => simp at hj)
  have hinv : s.clients.length = 1 ∧ WaitInv 0 [] s ∧ DrainedInv s ∧
      mass s = (pushes ops : Multiset T) := by
    refine reachable_induction (fun s : System T => s.clients.length = 1 ∧ WaitInv 0 [] s ∧
      DrainedInv s ∧ mass s = (pushes ops : Multiset T)) _
      ⟨by simp [newHandler], h0, ?_, ?_⟩ ?_ s hr
    · intro htrig
      simp [newHandler]
    · simp [mass, newHandler, LoopPc.held, pushes_append, pushes]
    · intro s l s' ⟨hlen, hw, hd, hm⟩ h
      exact ⟨by rw [step_clients_length s s' l h]; exact hlen, waitInv_step 0 [] s s' l hw h,
        drainedInv_step s s' l hlen hw hd h, by rw [mass_step s s' l h]; exact hm⟩
  obtain ⟨hlen, ⟨_, c, hc, hph⟩, hd, hm⟩ := hinv
  have hcmem : c ∈ s.clients := List.getElem?_mem hc
  have hcp := hret c hcmem
  have hphase : s.chClosed = true ∧ s.loop.idle := by
    rcases hph with ⟨rest, hp, _⟩ | ⟨hp, _⟩ | ⟨_, hcl, hl⟩
    · rw [hcp] at hp; simp at hp
    · rw [hcp] at hp; simp at hp
    · exact ⟨hcl, hl⟩
  have hq : s.queue.items = [] := hd (Or.inr hphase.1)
  have hh : s.loop.held = [] := idle_held _ hphase.2
  have hperm : (s.sink.flatten ++ (s.asyncs.map AsyncPc.held).flatten).Perm (pushes ops) := by
    apply Multiset.coe_eq_coe.mp
    rw [← hm]
    simp only [mass, hq, hh, sum_map_pushes_nil _ hret, sum_map_held, Multiset.coe_nil,
      add_zero, Multiset.coe_add]
  refine ⟨hq, hh, hperm, ?_⟩
  intro hno
  have : (s.asyncs.map AsyncPc.held).flatten = [] := by
    rw [List.flatten_eq_nil_iff]
    intro l hl
    obtain ⟨a, ha, rfl⟩ := List.mem_map.mp hl
    exact hno a ha
  rw [this, List.append_nil] at hperm
  exact hperm

theorem other_steps_keep_client (s s' : System T) (l : Label) (t : Nat) (c : Client T)
    (hc : s.clients[t]? = some c) (h : step s l = some s') (hl : l ≠ .client t)
    (hs : s.chClosed = true ∨ sending c = none) (hr : receiving c = false) :
    s'.clients[t]? = some c := by
  rcases step_clients s s' l h with ⟨hcs, _⟩ | ⟨u, cu, cmd, rfl, hcu, hsu, _, hcl, hcs, _, _⟩ |
    ⟨u, cu, rfl, hcu, hstep⟩ | ⟨a, b, ca, cb, cmd, rfl, hab, hca, hcb, hrb, hsa, hcl, hcs, _, _⟩
  · rw [hcs]; exact hc
  · by_cases hut : u = t
    · subst hut
      rw [hc] at hcu; cases hcu
      rcases hs with hs | hs
      · rw [hcl] at hs; cases hs
      · rw [hsu] at hs; cases hs
    · rw [hcs, List.getElem?_set_ne hut]; exact hc
  · have hut : u ≠ t := fun e => hl (by rw [e])
    obtain ⟨c', hcs, _⟩ := clientStep_cases s s' u cu hstep
    rw [hcs, List.getElem?_set_ne hut]; exact hc
  · have hbt : b ≠ t := by
      rintro rfl
      rw [hc] at hcb; cases hcb
      rw [hrb] at hr; cases hr
    have hat : a ≠ t := by
      rintro rfl
      rw [hc] at hca; cases hca
      rcases hs with hs | hs
      · rw [hcl] at hs; cases hs
      · rw [hsa] at hs; cases hs
    rw [hcs, List.getElem?_set_ne hbt, List.getElem?_set_ne hat]; exact hc

theorem step_chClosed (s s' : System T) (l : Label) (h : step s l = some s')
    (hc : s.chClosed = true) : s'.chClosed = true := by
  cases l <;> simp only [step, listen, goHandle] at h
  case client t =>
    split at h
    · have := clientStep_frame _ _ _ _ h
      simp only [this, hc]
    · simp at h
  all_goals
    rcases s with ⟨q, cl, tu, tk, tp, sink, lp, as, cs, rt, lg, cp⟩
    simp only at h hc
    (repeat' split at h)
  all_goals (simp at h)
  all_goals (subst h)
  all_goals (simp_all)

theorem step_slot (s s' : System T) (l : Label) (d : Duration) (h : step s l = some s')
    (hd : s.tickerUpdate = some d) (hl : l ≠ .loopUpdate) : s'.tickerUpdate = some d := by
  cases l <;> simp only [step, listen, goHandle] at h
  case client t =>
    split at h
    · unfold clientStep at h
      (split at h <;> (try unfold withTick at h) <;> (try unfold flush at h) <;>
        (try unfold flushAndWait at h) <;> (repeat' split at h) <;> simp at h)
      all_goals subst h
      all_goals simp_all
    · simp at h
  case loopUpdate => exact absurd rfl hl
  all_goals
    rcases s with ⟨q, cl, tu, tk, tp, sink, lp, as, cs, rt, lg, cp⟩
    simp only at h hd
    (repeat' split at h)
  all_goals (simp at h)
  all_goals (subst h)
  all_goals (simp_all)

/-- Claim C3: a second terminal stop fails loudly. Take a state whose command
channel has been closed, or, which implies it, a reachable state in which client
`t`, the only sender on the command channel, has returned from its
`flushAndWait`. A client at the first statement of a later `flush` or
`flushAndWait`, which is the send on `commandCh`, panics when it runs; that step
calls the sink zero times and hands no command to the loop (sink record, command
log, loop, tick-started goroutines and the record of completed `handle` calls are
untouched); no other step of the system
lets the send complete (the client stays where it is and the channel stays
closed); and after the panic the call never completes. -/
theorem send_on_closed_command_channel_panics (s : System T) (t : Nat) (c : Client T)
    (hc : s.clients[t]? = some c) (hpc : c.pc = .entry)
    (hop : c.prog.head? = some .flush ∨ c.prog.head? = some .flushAndWait)
    (hdone : s.chClosed = true ∨
      ∃ q cs pre post, cs[t]? = some (pre ++ .flushAndWait :: post) ∧ .flushAndWait ∉ pre ∧
        (∀ j p, cs[j]? = some p → j ≠ t → Quiet p) ∧ Reachable (newHandler q cs) s ∧
        c.prog.length ≤ post.length) :
    s.chClosed = true ∧
    step s (.client t) = some { s with clients := s.clients.set t ⟨c.prog, .panicked⟩ } ∧
    (∀ s', step s (.client t) = some s' →
      s'.sink = s.sink ∧ s'.cmdLog = s.cmdLog ∧ s'.loop = s.loop ∧ s'.asyncs = s.asyncs ∧
      s'.completed = s.completed) ∧
    (∀ l s', step s l = some s' → l ≠ .client t →
      s'.clients[t]? = some c ∧ s'.chClosed = true) ∧
    (∀ l s', step { s with clients := s.clients.set t ⟨c.prog, .panicked⟩ } l = some s' →
      s'.clients[t]? = some ⟨c.prog, .panicked⟩) := by
  have hcl : s.chClosed = true := by
    rcases hdone with h | ⟨q, cs, pre, post, ht, hpre, hothers, hr, hret⟩
    · exact h
    · exact (lone_sender_returned q cs t pre post ht hpre hothers s hr c hc hret).2
  have hlt : t < s.clients.length := (List.getElem?_eq_some_iff.mp hc).1
  have hrecv : receiving c = false := by
    unfold receiving; split <;> simp_all
  have hstep : step s (.client t) =
      some { s with clients := s.clients.set t ⟨c.prog, .panicked⟩ } := by
    obtain ⟨prog, pc⟩ := c
    simp only at hpc hop; subst hpc
    cases prog with
    | nil => simp at hop
    | cons op rest =>
      simp only [List.head?_cons, Option.some.injEq] at hop
      rcases hop with rfl | rfl <;> simp [step, hc, clientStep, flush, flushAndWait, hcl]
  refine ⟨hcl, hstep, ?_, ?_, ?_⟩
  · intro s' h
    rw [hstep] at h; cases h
    simp
  · intro l s' h hl
    exact ⟨other_steps_keep_client s s' l t c hc h hl (Or.inl hcl) hrecv,
      step_chClosed s s' l h hcl⟩
  · intro l s' h
    have hc' : ({ s with clients := s.clients.set t ⟨c.prog, .panicked⟩ } : System T).clients[t]?
        = some ⟨c.prog, .panicked⟩ := by simp [hlt]
    by_cases hl : l = .client t
    · subst hl
      exfalso
      simp only [step, hc'] at h
      unfold clientStep at h
      split at h <;> (try unfold withTick at h) <;> (try unfold flush at h) <;>
        (try unfold flushAndWait at h) <;> simp_all
    · refine other_steps_keep_client _ s' l t _ hc' h hl (Or.inl hcl) ?_
      unfold receiving; split <;> simp_all

/-- Claim C5, amended: `withTick` blocks exactly when the update slot is full. In
every state with the ticker set (the loop has started), a client entering
`withTick p` first records `p` as tick period and reaches the send of line 42.
With the single slot of `tickerUpdate` empty the call then returns on its own,
leaving `p` in the slot. With the slot full the call cannot return on its own:
in every state where the client stands at that send with the slot full its next
step is disabled, and every step of the system other than the loop receiving the
pending update (lines 64 to 66) leaves the client at the send and the slot
full. -/
theorem withTick_records_period_and_sends (s : System T) (t : Nat) (p : Duration)
    (rest : List (Op T)) (tk : Ticker)
    (hc : s.clients[t]? = some ⟨.withTick p :: rest, .entry⟩) (htk : s.ticker = some tk) :
    runClient t 2 s = some { s with tickerPeriod := p,
                                    clients := s.clients.set t ⟨.withTick p :: rest, .wt42⟩ } ∧
    (s.tickerUpdate = none →
      runClient t 3 s = some { s with tickerPeriod := p, tickerUpdate := some p,
                                      clients := s.clients.set t ⟨rest, .entry⟩ }) ∧
    (∀ d, s.tickerUpdate = some d →
      runClient t 3 s = none ∧
      ∀ s2 : System T, s2.clients[t]? = some ⟨.withTick p :: rest, .wt42⟩ →
        s2.tickerUpdate = some d →
        step s2 (.client t) = none ∧
        ∀ l s3, step s2 l = some s3 → l ≠ .loopUpdate →
          s3.clients[t]? = some ⟨.withTick p :: rest, .wt42⟩ ∧ s3.tickerUpdate = some d) := by
  have hlt : t < s.clients.length := (List.getElem?_eq_some_iff.mp hc).1
  refine ⟨by simp [runClient, step, hc, clientStep, withTick, hlt, htk], ?_, ?_⟩
  · intro hu
    simp [runClient, step, hc, clientStep, withTick, hlt, htk, hu]
  · intro d hu
    refine ⟨by simp [runClient, step, hc, clientStep, withTick, hlt, htk, hu], ?_⟩
    intro s2 hc2 hu2
    have hblocked : step s2 (.client t) = none := by
      simp [step, hc2, clientStep, withTick, hu2]
    refine ⟨hblocked, ?_⟩
    intro l s3 h hl
    have hlc : l ≠ .client t := by
      rintro rfl
      rw [hblocked] at h; cases h
    exact ⟨other_steps_keep_client s2 s3 l t _ hc2 h hlc (Or.inr rfl) rfl,
      step_slot s2 s3 l d h hu2 hl⟩

/-- Claim C6, amended: processing an update with a positive period changes only
the timer. For every state with the loop in its `select`, a period `d > 0` in
the update slot and ticker `tk`, the step of lines 64 to 66 is enabled; it stops
`tk`, installs a fresh running ticker of period `d` and empties the slot; it
does not call the sink and leaves the queue, the command channel, the command
log, the clients, the tick-started goroutines, the field `tickerPeriod` and the
record of completed `handle` calls unchanged, and the loop is back in its
`select`. -/
theorem update_changes_only_timer (s : System T) (d : Duration) (tk : Ticker)
    (hl : s.loop = .select) (hu : s.tickerUpdate = some d) (htk : s.ticker = some tk)
    (hd : 0 < d) :
    ∃ s', step s .loopUpdate = some s' ∧
      s'.ticker = some ⟨d, false, false⟩ ∧
      s'.retired = ⟨tk.period, true, tk.pending⟩ :: s.retired ∧
      s'.tickerUpdate = none ∧
      s'.sink = s.sink ∧ s'.queue = s.queue ∧ s'.chClosed = s.chClosed ∧
      s'.cmdLog = s.cmdLog ∧ s'.clients = s.clients ∧ s'.asyncs = s.asyncs ∧
      s'.loop = .select ∧ s'.tickerPeriod = s.tickerPeriod ∧
      s'.completed = s.completed := by
  refine ⟨{ s with tickerUpdate := none, ticker := some ⟨d, false, false⟩,
                   retired := tk.Stop :: s.retired }, ?_, ?_⟩
  · simp [step, listen, hl, hu, htk, NewTicker_pos d hd]
  · simp [Ticker.Stop, hl]

/-- Claim C4, amended: the loop is stopped only via `commandFlushAndWait`. For
every reachable state `s`: the command channel is closed only after a
`commandFlushAndWait` has been processed, that is, received at line 54 and
handled, the call of `handle` made for it at line 59 having returned after its
sink call; the loop has returned only with the channel closed, hence only
after such a command has been processed; and if `s` is `Running` (loop started
and alive, channel open, no `commandFlushAndWait` in progress) then every step
leads to a `Running` state again, except the receipt of a `commandFlushAndWait`
and a tick-period update whose period is not positive (on which
`time.NewTicker` panics). In particular a tick, an update with a positive period
and every command other than `commandFlushAndWait` leave the loop running with
the command channel open. -/
theorem stopped_only_via_flushAndWait (q : Queue T) (cs : List (List (Op T)))
    (s : System T) (hr : Reachable (newHandler q cs) s) :
    (s.chClosed = true → Processed s) ∧
    (s.loop = .returned → s.chClosed = true ∧ Processed s) ∧
    (∀ l s', Running s → step s l = some s' →
      Running s' ∨
      (∃ t c, l = .loopRecv t ∧ s.clients[t]? = some c ∧
        sending c = some .commandFlushAndWait) ∨
      (l = .loopUpdate ∧ ∃ d, s.tickerUpdate = some d ∧ d ≤ 0)) := by
  have hinv : StopInv s :=
    reachable_induction StopInv _ (by simp [StopInv, Processed, newHandler, LoopPc.cmd])
      (fun s l s' hs h => stopInv_step s s' l hs h) s hr
  have hret : s.loop = .returned → s.chClosed = true := hinv.2.2.2.2.2.1
  refine ⟨hinv.1, fun h => ⟨hret h, hinv.1 (hret h)⟩, ?_⟩
  intro l s' hrun h
  obtain ⟨hc, hl⟩ := hrun
  cases l <;> simp only [step, listen, goHandle] at h
  case client t =>
    split at h
    · have := clientStep_frame _ _ _ _ h
      left; simp only [Running, this, hc, hl, and_self]
    · simp at h
  all_goals
    rcases s with ⟨q, cl, tu, tk, tp, sink, lp, as, cs, rt, lg, cp⟩
    simp only at h hc hl
    (repeat' split at h)
  all_goals (simp at h)
  all_goals (subst h)
  all_goals (simp_all [Running, LoopPc.serving, NewTicker_eq_none])
  all_goals tauto

theorem getElem?_append_cons {α : Type} (xs ys : List α) (a : α) :
    (xs ++ a :: ys)[xs.length]? = some a := by
  induction xs with
  | nil => simp
  | cons x xs ih => simpa using ih

theorem set_append_cons {α : Type} (xs ys : List α) (a b : α) :
    (xs ++ a :: ys).set xs.length b = xs ++ b :: ys := by
  induction xs with
  | nil => simp
  | cons x xs ih => simp [ih]

/-- Claim C7: every handle invocation calls the sink exactly once with the
drained batch. For every sequence `es` pushed onto an empty queue (also the empty
sequence), `handle` appends exactly one call to the sink record, with batch `es`
in push order, and leaves the queue empty; a second `handle` with no push in
between appends exactly one more call, with the empty batch. The three steps of a
handle invocation inside the loop (line 59) and inside a tick-started goroutine
(line 53) amount to `handle`; the loop's invocation is then entered, with its
command, client and batch, among the completed ones. -/
theorem handle_calls_sink_once_with_drained_batch (s : System T) (es : List T)
    (cmd : Command) (t : Nat) (before after : List (AsyncPc T)) :
    (handle { s with queue := es.foldl Queue.push ⟨[]⟩ }).sink = s.sink ++ [es] ∧
    (handle { s with queue := es.foldl Queue.push ⟨[]⟩ }).queue = ⟨[]⟩ ∧
    (handle (handle { s with queue := es.foldl Queue.push ⟨[]⟩ })).sink = s.sink ++ [es, []] ∧
    (handle (handle { s with queue := es.foldl Queue.push ⟨[]⟩ })).queue = ⟨[]⟩ ∧
    run { s with loop := .handling cmd t } [.loopDrain, .loopSinkCall, .loopSinkRet] =
      some { handle s with loop := .handled cmd t,
                           completed := s.completed ++ [(cmd, t, s.queue.All.1)] } ∧
    run { s with asyncs := before ++ .spawned :: after }
        [.asyncDrain before.length, .asyncSinkCall before.length, .asyncSinkRet before.length] =
      some { handle s with asyncs := before ++ .finished :: after } := by
  have h1 : (es.foldl Queue.push (⟨[]⟩ : Queue T)) = ⟨es⟩ := by
    have := foldl_push_items es (⟨[]⟩ : Queue T)
    cases h : es.foldl Queue.push (⟨[]⟩ : Queue T)
    simp_all
  refine ⟨?_, ?_, ?_, ?_, ?_, ?_⟩
  · simp [handle, h1, Queue.All]
  · simp [handle, Queue.All]
  · simp [handle, h1, Queue.All]
  · simp [handle, Queue.All]
  · simp [run, step, listen, handle]
  · simp only [run, step, goHandle, handle, getElem?_append_cons, set_append_cons, Option.bind]

end Observer

namespace Observer

/-- Counterexample to claim C1 as stated. One event 7 is pushed, a tick fires and
the goroutine it starts drains the queue, then `flushAndWait` runs to its return
(the last step of the schedule). At that moment the sink has received one batch,
the empty one: event 7 is held by the tick-started goroutine and has not reached
the sink. -/
theorem tick_started_handle_holds_event_at_return :
    (run (newHandler (T := Nat) ⟨[]⟩ [[.push 7, .flushAndWait]])
      [.loopStart, .client 0, .tickFire, .loopTick, .asyncDrain 0, .loopRecv 0, .loopDrain,
       .loopSinkCall, .loopSinkRet, .loopAfter, .loopClose, .client 0]).map
      (fun s => (s.clients, s.sink, s.asyncs, s.queue.items)) =
    some ([⟨[], .entry⟩], [[]], [.drained [7]], []) := by decide

/-- Witness for the theorem of claim C1: a schedule of two pushes, a `flush`, a
`withTick` and the terminal `flushAndWait`, with one tick. -/
theorem no_loss_under_flush_witness :
    sampleFinal.queue.items = [] ∧ sampleFinal.loop.held = [] ∧
    (sampleFinal.sink.flatten ++ (sampleFinal.asyncs.map AsyncPc.held).flatten).Perm
      (pushes sampleOps) ∧
    ((∀ a ∈ sampleFinal.asyncs, a.held = []) →
      sampleFinal.sink.flatten.Perm (pushes sampleOps)) :=
  no_loss_under_flush sampleOps (by decide) sampleFinal ⟨sampleSchedule, by decide⟩
    (by decide)

/-- Counterexample to claim C2 as stated. Client 0 calls `flushAndWait`, client 1
calls `flush`. The loop receives the command of client 0 and enters `handle`;
the send of client 1 then meets the receive of line 81 in client 0, which
returns: client 0 is done while the loop has not yet drained the queue and the
sink has not been called. -/
theorem flushAndWait_returns_early_on_concurrent_flush :
    (run (newHandler (T := Nat) ⟨[]⟩ [[.flushAndWait], [.flush]])
      [.loopStart, .loopRecv 0, .handoff 1 0]).map
      (fun s => (s.clients[0]?, s.loop, s.sink, s.chClosed)) =
    some (some ⟨[], .entry⟩, .handling .commandFlushAndWait 0, [], false) := by decide

/-- Witness for the theorem of claim C2: client 0 makes the
terminal call while client 1 pushes and calls `withTick`. -/
theorem flushAndWait_waits_for_its_sink_call_witness :
    (∃ b, (Command.commandFlushAndWait, 0, b) ∈ samplePairFinal.completed ∧
      b ∈ samplePairFinal.sink) ∧
    ¬ samplePairFinal.loop.fawHandleOpen 0 ∧ samplePairFinal.loop.idle ∧
      samplePairFinal.chClosed = true :=
  flushAndWait_waits_for_its_sink_call ⟨[]⟩ samplePair 0 [] [] (by decide) (by decide)
    (by
      intro j p hj hne
      match j, hj, hne with
      | 0, _, hne => exact absurd rfl hne
      | 1, hj, _ =>
        simp [samplePair] at hj; subst hj
        intro op hop
        simp at hop
        rcases hop with rfl | rfl <;> simp
      | j + 2, hj, _ => simp [samplePair] at hj)
    samplePairFinal ⟨samplePairSchedule, by decide⟩ ⟨[], .entry⟩ (by decide) (by decide)

/-- Witness for the theorem of claim C3: a `flush` after the
terminal stop. -/
theorem send_on_closed_command_channel_panics_witness :
    sampleStopped.chClosed = true ∧
    step sampleStopped (.client 0) =
      some { sampleStopped with clients := [⟨[.flush], .panicked⟩] } :=
  have h := send_on_closed_command_channel_panics sampleStopped 0 ⟨[.flush], .entry⟩
    (by decide) (by decide) (by decide)
    (Or.inr ⟨⟨[]⟩, [[.flushAndWait, .flush]], [], [.flush], by decide, by decide,
      (by
        intro j p hj hne
        cases j with
        | zero => exact absurd rfl hne
        | succ j => simp at hj),
      ⟨[.loopStart, .loopRecv 0, .loopDrain, .loopSinkCall, .loopSinkRet, .loopAfter,
        .loopClose, .client 0, .loopRecvClosed], by decide⟩, by decide⟩)
  ⟨h.1, h.2.1⟩

/-- Counterexample to claim C4 as stated. After `withTick 0` the loop, in its
`select` with the channel open, processes the update and panics in
`time.NewTicker`: it is not left running. And after a `commandFlushAndWait` has
closed the channel, the loop, back in its `select` before it returns, processes a
pending update of period 5: it is left running with the command channel
closed. -/
theorem update_can_end_the_loop_or_find_the_channel_closed :
    (run (newHandler (T := Nat) ⟨[]⟩ [[.withTick 0]])
      [.loopStart, .client 0, .client 0, .client 0]).map
      (fun s => (s.loop, s.chClosed, s.tickerUpdate)) = some (.select, false, some 0) ∧
    (run (newHandler (T := Nat) ⟨[]⟩ [[.withTick 0]])
      [.loopStart, .client 0, .client 0, .client 0, .loopUpdate]).map
      (fun s => (s.loop, s.chClosed)) = some (.panicked, false) ∧
    (run (newHandler (T := Nat) ⟨[]⟩ [[.withTick 5, .flushAndWait]])
      [.loopStart, .client 0, .client 0, .client 0, .loopRecv 0, .loopDrain, .loopSinkCall,
       .loopSinkRet, .loopAfter, .loopClose]).map
      (fun s => (s.loop, s.chClosed, s.tickerUpdate)) = some (.select, true, some 5) ∧
    (run (newHandler (T := Nat) ⟨[]⟩ [[.withTick 5, .flushAndWait]])
      [.loopStart, .client 0, .client 0, .client 0, .loopRecv 0, .loopDrain, .loopSinkCall,
       .loopSinkRet, .loopAfter, .loopClose, .loopUpdate]).map
      (fun s => (s.loop, s.chClosed)) = some (.select, true) := by decide

/-- Witness for the theorem of claim C4: a tick processed in a running
state. -/
theorem stopped_only_via_flushAndWait_witness :
    Running { sampleRunning with ticker := some ⟨1000000000, false, false⟩,
                                  asyncs := [.spawned] } ∨
      (∃ t c, Label.loopTick = .loopRecv t ∧ sampleRunning.clients[t]? = some c ∧
        sending c = some .commandFlushAndWait) ∨
      (Label.loopTick = .loopUpdate ∧ ∃ d, sampleRunning.tickerUpdate = some d ∧ d ≤ 0) :=
  (stopped_only_via_flushAndWait ⟨[4]⟩ [[.withTick 7]] sampleRunning
    ⟨[.loopStart, .tickFire], by decide⟩).2.2 .loopTick _
    ⟨by decide, by simp [sampleRunning, LoopPc.serving]⟩ (by decide)

/-- Counterexample to claim C5 as stated. With the loop started, two `withTick`
calls without a loop iteration in between: the second stands at the send of
line 42 with the slot full and cannot move. The same after the loop has
returned, where no goroutine is left to empty the slot. -/
theorem withTick_blocks_on_full_slot :
    (run (newHandler (T := Nat) ⟨[]⟩ [[.withTick 5, .withTick 7]])
      [.loopStart, .client 0, .client 0, .client 0, .client 0, .client 0]).map
      (fun s => (s.ticker.isSome, s.tickerUpdate, s.clients, (step s (.client 0)).isNone)) =
      some (true, some 5, [⟨[.withTick 7], .wt42⟩], true) ∧
    (run (newHandler (T := Nat) ⟨[]⟩ [[.flushAndWait, .withTick 6, .withTick 7]])
      [.loopStart, .loopRecv 0, .loopDrain, .loopSinkCall, .loopSinkRet, .loopAfter,
       .loopClose, .loopRecvClosed, .client 0, .client 0, .client 0, .client 0, .client 0,
       .client 0]).map
      (fun s => (s.loop, s.ticker.isSome, s.tickerUpdate)) = some (.returned, true, some 6) ∧
    (run (newHandler (T := Nat) ⟨[]⟩ [[.flushAndWait, .withTick 6, .withTick 7]])
      [.loopStart, .loopRecv 0, .loopDrain, .loopSinkCall, .loopSinkRet, .loopAfter,
       .loopClose, .loopRecvClosed, .client 0, .client 0, .client 0, .client 0, .client 0,
       .client 0]).map
      (fun s => (s.clients, (step s (.client 0)).isNone)) =
      some ([⟨[.withTick 7], .wt42⟩], true) := by decide

/-- Witness for the theorem of claim C5: `withTick 7` with the slot
empty. -/
theorem withTick_records_period_and_sends_witness :
    runClient 0 3 sampleRunning =
      some { sampleRunning with tickerPeriod := 7, tickerUpdate := some 7,
                                clients := [⟨[], .entry⟩] } :=
  (withTick_records_period_and_sends sampleRunning 0 7 [] ⟨1000000000, false, true⟩
    (by decide) (by decide)).2.1 (by decide)

/-- Counterexample to claim C6 as stated. After `withTick 0` the loop is in its
`select` with period 0 in the update slot; processing the update stops the
current ticker and then panics in `time.NewTicker`: no ticker of period 0 is
installed. -/
theorem update_nonpositive_period_panics :
    (run (newHandler (T := Nat) ⟨[]⟩ [[.withTick 0]])
      [.loopStart, .client 0, .client 0, .client 0]).map
      (fun s => (s.loop, s.tickerUpdate, s.ticker)) =
      some (.select, some 0, some ⟨1000000000, false, false⟩) ∧
    (run (newHandler (T := Nat) ⟨[]⟩ [[.withTick 0]])
      [.loopStart, .client 0, .client 0, .client 0, .loopUpdate]).map
      (fun s => (s.loop, s.ticker, s.retired)) =
      some (.panicked, some ⟨1000000000, true, false⟩, []) := by decide

/-- Witness for the theorem of claim C6: period 7 arrives at a running
handler. -/
theorem update_changes_only_timer_witness :
    ∃ s', step { sampleRunning with tickerUpdate := some 7 } .loopUpdate = some s' ∧
      s'.ticker = some ⟨7, false, false⟩ ∧
      s'.retired = [⟨1000000000, true, true⟩] ∧
      s'.tickerUpdate = none ∧
      s'.sink = [] ∧ s'.queue = ⟨[4]⟩ ∧ s'.chClosed = false ∧
      s'.cmdLog = [] ∧ s'.clients = [⟨[.withTick 7], .entry⟩] ∧ s'.asyncs = [] ∧
      s'.loop = .select ∧ s'.tickerPeriod = 1000000000 ∧
      s'.completed = [] :=
  update_changes_only_timer { sampleRunning with tickerUpdate := some 7 } 7
    ⟨1000000000, false, true⟩ (by decide) (by decide) (by decide) (by decide)

end Observer

namespace Langfuse

open Model

theorem UUID.String_ne_empty (u : UUID) : u.String ≠ "" := by
  intro h
  have := congrArg String.length h
  simp [UUID.String, UUID.hex, String.length] at this

theorem newID_ne_empty (rt : Runtime) : rt.newID.1 ≠ "" :=
  UUID.String_ne_empty _

theorem buildID_empty_ne_empty (rt : Runtime) : (buildID (some "") rt).1 ≠ "" := by
  simp only [buildID, if_true]
  exact newID_ne_empty rt

theorem createsTraceThen_intro (l l' : Langfuse) (name inTraceID : String)
    (evType : IngestionEventType) (body : Body) (outTraceID : String)
    (h : if inTraceID = "" then
        ∃ tev eev tr, l'.dispatched = (l.dispatched ++ [tev]) ++ [eev] ∧
          tev.Type_ = IngestionEventTypeTraceCreate ∧ tev.Body = .trace tr ∧
          tr.Name = name ∧ tr.ID ≠ "" ∧
          eev.Type_ = evType ∧ eev.Body = body ∧ outTraceID = tr.ID
      else
        ∃ eev, l'.dispatched = l.dispatched ++ [eev] ∧
          eev.Type_ = evType ∧ eev.Body = body ∧ outTraceID = inTraceID) :
    CreatesTraceThen l l' name inTraceID evType body outTraceID := by
  unfold CreatesTraceThen
  by_cases ht : inTraceID = ""
  · rw [if_pos ht] at h ⊢
    obtain ⟨tev, eev, tr, h1, h2⟩ := h
    exact ⟨tev, eev, tr, by rw [h1, List.append_assoc]; rfl, h2⟩
  · rw [if_neg ht] at h ⊢
    exact h

theorem span_creates (l : Langfuse) (rt : Runtime) (s : Model.Span)
    (parentID : Option String) :
    CreatesTraceThen l (l.Span rt s parentID).l s.Name s.TraceID IngestionEventTypeSpanCreate
      (.span (l.Span rt s parentID).arg) (l.Span rt s parentID).arg.TraceID ∧
    (l.Span rt s parentID).out = .ok (l.Span rt s parentID).arg := by
  refine ⟨createsTraceThen_intro _ _ _ _ _ _ _ ?_, ?_⟩
  all_goals generalize hr : l.Span rt s parentID = r
  · by_cases ht : s.TraceID = ""
    · rw [if_pos ht]
      by_cases hty : s.Type_ = "" <;> cases parentID <;>
        simp only [ht, hty, if_true, if_false, Langfuse.Span, createTrace, Langfuse.Trace]
          at hr <;>
        subst hr <;>
        exact ⟨_, _, _, rfl, rfl, rfl, rfl, buildID_empty_ne_empty rt, rfl, rfl, rfl⟩
    · rw [if_neg ht]
      by_cases hty : s.Type_ = "" <;> cases parentID <;>
        simp only [ht, hty, if_true, if_false, Langfuse.Span] at hr <;>
        subst hr <;>
        exact ⟨_, rfl, rfl, rfl, rfl⟩
  · by_cases ht : s.TraceID = "" <;> by_cases hty : s.Type_ = "" <;> cases parentID <;>
      simp only [ht, hty, if_true, if_false, Langfuse.Span, createTrace, Langfuse.Trace]
        at hr <;>
      subst hr <;> rfl

theorem generation_creates (l : Langfuse) (rt : Runtime) (g : Model.Generation)
    (parentID : Option String) :
    CreatesTraceThen l (l.Generation rt g parentID).l g.Name g.TraceID
      IngestionEventTypeGenerationCreate
      (.generation (l.Generation rt g parentID).arg) (l.Generation rt g parentID).arg.TraceID ∧
    (l.Generation rt g parentID).out = .ok (l.Generation rt g parentID).arg := by
  refine ⟨createsTraceThen_intro _ _ _ _ _ _ _ ?_, ?_⟩
  all_goals generalize hr : l.Generation rt g parentID = r
  · by_cases ht : g.TraceID = ""
    · rw [if_pos ht]
      by_cases hty : g.Type_ = "" <;> cases parentID <;>
        simp only [ht, hty, if_true, if_false, Langfuse.Generation, createTrace, Langfuse.Trace]
          at hr <;>
        subst hr <;>
        exact ⟨_, _, _, rfl, rfl, rfl, rfl, buildID_empty_ne_empty rt, rfl, rfl, rfl⟩
    · rw [if_neg ht]
      by_cases hty : g.Type_ = "" <;> cases parentID <;>
        simp only [ht, hty, if_true, if_false, Langfuse.Generation] at hr <;>
        subst hr <;>
        exact ⟨_, rfl, rfl, rfl, rfl⟩
  · by_cases ht : g.TraceID = "" <;> by_cases hty : g.Type_ = "" <;> cases parentID <;>
      simp only [ht, hty, if_true, if_false, Langfuse.Generation, createTrace, Langfuse.Trace]
        at hr <;>
      subst hr <;> rfl

theorem event_creates (l : Langfuse) (rt : Runtime) (e : Model.Event)
    (parentID : Option String) :
    CreatesTraceThen l (l.Event rt e parentID).l e.Name e.TraceID IngestionEventTypeEventCreate
      (.event (l.Event rt e parentID).arg) (l.Event rt e parentID).arg.TraceID ∧
    (l.Event rt e parentID).out = .ok (l.Event rt e parentID).arg := by
  refine ⟨createsTraceThen_intro _ _ _ _ _ _ _ ?_, ?_⟩
  all_goals generalize hr : l.Event rt e parentID = r
  · by_cases ht : e.TraceID = ""
    · rw [if_pos ht]
      by_cases hty : e.Type_ = "" <;> cases parentID <;>
        simp only [ht, hty, if_true, if_false, Langfuse.Event, createTrace, Langfuse.Trace]
          at hr <;>
        subst hr <;>
        exact ⟨_, _, _, rfl, rfl, rfl, rfl, buildID_empty_ne_empty rt, rfl, rfl, rfl⟩
    · rw [if_neg ht]
      by_cases hty : e.Type_ = "" <;> cases parentID <;>
        simp only [ht, hty, if_true, if_false, Langfuse.Event] at hr <;>
        subst hr <;>
        exact ⟨_, rfl, rfl, rfl, rfl⟩
  · by_cases ht : e.TraceID = "" <;> by_cases hty : e.Type_ = "" <;> cases parentID <;>
      simp only [ht, hty, if_true, if_false, Langfuse.Event, createTrace, Langfuse.Trace]
        at hr <;>
      subst hr <;> rfl

theorem observation_creates (l : Langfuse) (rt : Runtime) (o : Model.Observation)
    (parentID : Option String) :
    CreatesTraceThen l (l.Observation rt o parentID).l o.Name o.TraceID
      IngestionEventTypeObservationCreate
      (.observation (l.Observation rt o parentID).arg)
      (l.Observation rt o parentID).arg.TraceID ∧
    (l.Observation rt o parentID).out = .ok (l.Observation rt o parentID).arg := by
  refine ⟨createsTraceThen_intro _ _ _ _ _ _ _ ?_, ?_⟩
  all_goals generalize hr : l.Observation rt o parentID = r
  · by_cases ht : o.TraceID = ""
    · rw [if_pos ht]
      by_cases hty : o.Type_ = "" <;> cases parentID <;>
        simp only [ht, hty, if_true, if_false, Langfuse.Observation, createTrace, Langfuse.Trace]
          at hr <;>
        subst hr <;>
        exact ⟨_, _, _, rfl, rfl, rfl, rfl, buildID_empty_ne_empty rt, rfl, rfl, rfl⟩
    · rw [if_neg ht]
      by_cases hty : o.Type_ = "" <;> cases parentID <;>
        simp only [ht, hty, if_true, if_false, Langfuse.Observation] at hr <;>
        subst hr <;>
        exact ⟨_, rfl, rfl, rfl, rfl⟩
  · by_cases ht : o.TraceID = "" <;> by_cases hty : o.Type_ = "" <;> cases parentID <;>
      simp only [ht, hty, if_true, if_false, Langfuse.Observation, createTrace, Langfuse.Trace]
        at hr <;>
      subst hr <;> rfl

/-- Claim C10: implicit trace creation. For each of `Span`, `Generation`, `Event`
and `Observation`, and every entity passed to it: with an empty `TraceID` the
call dispatches exactly two events, first a trace-create event whose body is a
trace with the entity's `Name` and a non-empty `ID`, then the entity's create
event whose body is the entity, and the returned entity's `TraceID` is that
trace's `ID`; with a non-empty `TraceID` it dispatches exactly one event, the
entity's create event, and returns the `TraceID` unchanged. The call always
returns the entity and no error. -/
theorem implicit_trace_creation (l : Langfuse) (rt : Runtime) (parentID : Option String)
    (s : Model.Span) (g : Model.Generation) (e : Model.Event) (o : Model.Observation) :
    (CreatesTraceThen l (l.Span rt s parentID).l s.Name s.TraceID IngestionEventTypeSpanCreate
        (.span (l.Span rt s parentID).arg) (l.Span rt s parentID).arg.TraceID ∧
      (l.Span rt s parentID).out = .ok (l.Span rt s parentID).arg) ∧
    (CreatesTraceThen l (l.Generation rt g parentID).l g.Name g.TraceID
        IngestionEventTypeGenerationCreate
        (.generation (l.Generation rt g parentID).arg)
        (l.Generation rt g parentID).arg.TraceID ∧
      (l.Generation rt g parentID).out = .ok (l.Generation rt g parentID).arg) ∧
    (CreatesTraceThen l (l.Event rt e parentID).l e.Name e.TraceID IngestionEventTypeEventCreate
        (.event (l.Event rt e parentID).arg) (l.Event rt e parentID).arg.TraceID ∧
      (l.Event rt e parentID).out = .ok (l.Event rt e parentID).arg) ∧
    (CreatesTraceThen l (l.Observation rt o parentID).l o.Name o.TraceID
        IngestionEventTypeObservationCreate
        (.observation (l.Observation rt o parentID).arg)
        (l.Observation rt o parentID).arg.TraceID ∧
      (l.Observation rt o parentID).out = .ok (l.Observation rt o parentID).arg) :=
  ⟨span_creates l rt s parentID, generation_creates l rt g parentID,
    event_creates l rt e parentID, observation_creates l rt o parentID⟩

theorem observation_type (l : Langfuse) (rt : Runtime) (o : Model.Observation)
    (parentID : Option String) :
    (l.Observation rt o parentID).arg.Type_ =
      (if o.Type_ = "" then ObservationTypeSpan else o.Type_) := by
  generalize hr : l.Observation rt o parentID = r
  by_cases ht : o.TraceID = "" <;> by_cases hty : o.Type_ = "" <;> cases parentID <;>
    simp only [ht, hty, if_true, if_false, Langfuse.Observation, createTrace, Langfuse.Trace]
      at hr <;>
    subst hr <;> simp only [hty, if_true, if_false]

/-- Claim C9: `Observation` defaults the type to SPAN and otherwise keeps it. For
every observation `o` the call returns the observation without error; the
returned observation has `Type` SPAN when `o.Type` was empty and `o.Type`
otherwise; and among the events the call dispatches exactly one is an
observation-create event, whose body is the returned observation and so carries
that same `Type`. -/
theorem observation_defaults_type_to_span (l : Langfuse) (rt : Runtime) (o : Model.Observation)
    (parentID : Option String) :
    (l.Observation rt o parentID).out = .ok (l.Observation rt o parentID).arg ∧
    (l.Observation rt o parentID).arg.Type_ =
      (if o.Type_ = "" then ObservationTypeSpan else o.Type_) ∧
    ∃ ev, ((l.Observation rt o parentID).l.dispatched.drop l.dispatched.length).filter
        (fun e => e.Type_ == IngestionEventTypeObservationCreate) = [ev] ∧
      ev.Body = .observation (l.Observation rt o parentID).arg := by
  obtain ⟨hc, hout⟩ := observation_creates l rt o parentID
  refine ⟨hout, observation_type l rt o parentID, ?_⟩
  unfold CreatesTraceThen at hc
  split at hc
  · obtain ⟨tev, eev, tr, h1, h2, _, _, _, h3, h4, _⟩ := hc
    refine ⟨eev, ?_, h4⟩
    rw [h1, List.drop_left]
    simp [List.filter, h2, h3, IngestionEventTypeTraceCreate, IngestionEventTypeObservationCreate]
  · obtain ⟨eev, h1, h3, h4, _⟩ := hc
    refine ⟨eev, ?_, h4⟩
    rw [h1, List.drop_left]
    simp [List.filter, h3]

/-- Claim C8: the update operations require `ID` and `TraceID`. For each of
`ObservationUpdate`, `GenerationEnd` and `SpanEnd` and every entity: if the
entity's `ID` or `TraceID` is empty the call returns an error (and no entity),
leaves the state as it was, so dispatches nothing, and leaves the entity
unchanged; otherwise it returns no error and returns the entity, which is the
entity passed in with an empty `Type` replaced by the default, and dispatches
exactly one event, of the matching update type, whose body is that entity. So an
error is returned if and only if `ID` or `TraceID` is empty. -/
theorem update_operations_require_ids (l : Langfuse) (rt : Runtime)
    (o : Model.Observation) (g : Model.Generation) (s : Model.Span) :
    (if o.ID = "" ∨ o.TraceID = "" then
      (∃ msg, (l.ObservationUpdate rt o).out = .error msg) ∧ (l.ObservationUpdate rt o).l = l ∧
        (l.ObservationUpdate rt o).arg = o
    else
      (l.ObservationUpdate rt o).out = .ok (l.ObservationUpdate rt o).arg ∧
      (l.ObservationUpdate rt o).arg =
        (if o.Type_ = "" then { o with Type_ := ObservationTypeSpan } else o) ∧
      ∃ ev, (l.ObservationUpdate rt o).l.dispatched = l.dispatched ++ [ev] ∧
        ev.Type_ = IngestionEventTypeObservationUpdate ∧ ev.Body = .observation (l.ObservationUpdate rt o).arg) ∧
    (if g.ID = "" ∨ g.TraceID = "" then
      (∃ msg, (l.GenerationEnd rt g).out = .error msg) ∧ (l.GenerationEnd rt g).l = l ∧
        (l.GenerationEnd rt g).arg = g
    else
      (l.GenerationEnd rt g).out = .ok (l.GenerationEnd rt g).arg ∧
      (l.GenerationEnd rt g).arg =
        (if g.Type_ = "" then { g with Type_ := ObservationTypeGeneration } else g) ∧
      ∃ ev, (l.GenerationEnd rt g).l.dispatched = l.dispatched ++ [ev] ∧
        ev.Type_ = IngestionEventTypeGenerationUpdate ∧ ev.Body = .generation (l.GenerationEnd rt g).arg) ∧
    (if s.ID = "" ∨ s.TraceID = "" then
      (∃ msg, (l.SpanEnd rt s).out = .error msg) ∧ (l.SpanEnd rt s).l = l ∧
        (l.SpanEnd rt s).arg = s
    else
      (l.SpanEnd rt s).out = .ok (l.SpanEnd rt s).arg ∧
      (l.SpanEnd rt s).arg =
        (if s.Type_ = "" then { s with Type_ := ObservationTypeSpan } else s) ∧
      ∃ ev, (l.SpanEnd rt s).l.dispatched = l.dispatched ++ [ev] ∧
        ev.Type_ = IngestionEventTypeSpanUpdate ∧ ev.Body = .span (l.SpanEnd rt s).arg) := by
  refine ⟨?_, ?_, ?_⟩
  · generalize hr : l.ObservationUpdate rt o = r
    by_cases hid : o.ID = ""
    · rw [if_pos (Or.inl hid)]
      simp only [hid, if_true, Langfuse.ObservationUpdate] at hr
      subst hr
      exact ⟨⟨_, rfl⟩, rfl, rfl⟩
    · by_cases ht : o.TraceID = ""
      · rw [if_pos (Or.inr ht)]
        simp only [hid, ht, if_true, if_false, Langfuse.ObservationUpdate] at hr
        subst hr
        exact ⟨⟨_, rfl⟩, rfl, rfl⟩
      · rw [if_neg (by simp [hid, ht])]
        by_cases hty : o.Type_ = "" <;>
          simp only [hid, ht, hty, if_true, if_false, Langfuse.ObservationUpdate] at hr <;>
          subst hr <;>
          exact ⟨rfl, (by simp only [hty, if_true, if_false]), _, rfl, rfl, rfl⟩
  · generalize hr : l.GenerationEnd rt g = r
    by_cases hid : g.ID = ""
    · rw [if_pos (Or.inl hid)]
      simp only [hid, if_true, Langfuse.GenerationEnd] at hr
      subst hr
      exact ⟨⟨_, rfl⟩, rfl, rfl⟩
    · by_cases ht : g.TraceID = ""
      · rw [if_pos (Or.inr ht)]
        simp only [hid, ht, if_true, if_false, Langfuse.GenerationEnd] at hr
        subst hr
        exact ⟨⟨_, rfl⟩, rfl, rfl⟩
      · rw [if_neg (by simp [hid, ht])]
        by_cases hty : g.Type_ = "" <;>
          simp only [hid, ht, hty, if_true, if_false, Langfuse.GenerationEnd] at hr <;>
          subst hr <;>
          exact ⟨rfl, (by simp only [hty, if_true, if_false]), _, rfl, rfl, rfl⟩
  · generalize hr : l.SpanEnd rt s = r
    by_cases hid : s.ID = ""
    · rw [if_pos (Or.inl hid)]
      simp only [hid, if_true, Langfuse.SpanEnd] at hr
      subst hr
      exact ⟨⟨_, rfl⟩, rfl, rfl⟩
    · by_cases ht : s.TraceID = ""
      · rw [if_pos (Or.inr ht)]
        simp only [hid, ht, if_true, if_false, Langfuse.SpanEnd] at hr
        subst hr
        exact ⟨⟨_, rfl⟩, rfl, rfl⟩
      · rw [if_neg (by simp [hid, ht])]
        by_cases hty : s.Type_ = "" <;>
          simp only [hid, ht, hty, if_true, if_false, Langfuse.SpanEnd] at hr <;>
          subst hr <;>
          exact ⟨rfl, (by simp only [hty, if_true, if_false]), _, rfl, rfl, rfl⟩

end Langfuse
